import Mathlib

/-!
Verification of the LatZero server (a local-host process orchestration
fabric written in JavaScript) against its natural-language specification.

The JavaScript sources are shallowly embedded: each JS class becomes a Lean
structure, each method a Lean function over that structure, JS Maps become
insertion-ordered association lists, Buffers become lists of byte values,
and thrown exceptions become the error branch of Except.  Timestamps
(Date.now()), timers (setTimeout / setInterval), console logging, event
emission and file-system writes are not modelled: none of the properties
below depend on them.  JS truthiness of possibly-undefined numbers,
strings and arrays is modelled explicitly by the jsOr* helpers.
-/

namespace LatZero

/-- Insertion-ordered association list modelling a JavaScript Map.
Keys are compared with decidable equality, set replaces in place,
and a new key is appended at the end, as iteration order of a JS Map. -/
abbrev AList (κ α : Type) : Type := List (κ × α)

namespace AList

def get? {κ α : Type} [DecidableEq κ] : AList κ α → κ → Option α
  | [], _ => none
  | (k2, v) :: rest, k => if k2 = k then some v else get? rest k

def set {κ α : Type} [DecidableEq κ] : AList κ α → κ → α → AList κ α
  | [], k, v => [(k, v)]
  | (k2, v2) :: rest, k, v =>
    if k2 = k then (k, v) :: rest else (k2, v2) :: set rest k v

def del {κ α : Type} [DecidableEq κ] : AList κ α → κ → AList κ α
  | [], _ => []
  | (k2, v2) :: rest, k => if k2 = k then rest else (k2, v2) :: del rest k

def hasKey {κ α : Type} [DecidableEq κ] (m : AList κ α) (k : κ) : Bool :=
  (get? m k).isSome

def size {κ α : Type} (m : AList κ α) : Nat := m.length

end AList

/-- Maps keyed by strings, the common case in the sources. -/
abbrev JMap (α : Type) : Type := AList String α

/-- JavaScript a || b for a possibly-undefined number: undefined and 0 are falsy. -/
def jsOrNat : Option Nat → Nat → Nat
  | none, b => b
  | some 0, b => b
  | some n, _ => n

/-- JavaScript a || b for a possibly-undefined string: undefined and the empty
string are falsy. -/
def jsOrStr : Option String → String → String
  | none, b => b
  | some s, b => if s = "" then b else s

/-- JavaScript a || b where both operands are possibly-undefined strings. -/
def jsOrStrOpt : Option String → Option String → Option String
  | none, b => b
  | some s, b => if s = "" then b else some s

/-- JavaScript truthiness of a possibly-undefined string. -/
def strTruthy : Option String → Bool
  | none => false
  | some s => s ≠ ""

/-- JavaScript string interpolation of a possibly-undefined string value. -/
def jsShow : Option String → String
  | none => "undefined"
  | some s => s

/-- Index normalisation of Buffer.prototype.slice: negative indices count from
the end of the buffer, and indices are clamped into the buffer. -/
def jsSliceNorm (len : Nat) (i : Int) : Nat :=
  if i < 0 then (max ((len : Int) + i) 0).toNat else min i.toNat len

/-- Buffer.prototype.slice over a byte list: the elements of positions
[start, stop) after normalisation, empty when the range is reversed. -/
def jsSlice (l : List Nat) (start stop : Int) : List Nat :=
  (l.take (jsSliceNorm l.length stop)).drop (jsSliceNorm l.length start)

/-!
## Memory blocks (src/unnamed/part_005, class MemoryBlock and MemoryManager)

A MemoryBlock holds a Buffer of config.size bytes, a permission map and a
version counter.  The backing store choice (mmap versus file fallback) and
the fs.writeFile mirror on write are I/O details outside the byte-level
semantics and are not modelled; lastAccessed timestamps and subscriber
notification likewise.  The config object of a block is the same object as
the metadata entry of the manager, so the version field below is the single
version counter the specification speaks about.
-/

/-- Permission map of a block: the config.permissions object, one list of
AppIDs per operation name.  An absent map behaves as all-empty lists,
matching the source fallback permissions || \x7b\x7d. -/
structure BlockPerms where
  readList : List String
  writeList : List String
  executeList : List String
deriving Repr, DecidableEq

/-- Lookup permissions[permission] || [] of the source. -/
def BlockPerms.forOp (p : BlockPerms) (op : String) : List String :=
  if op = "read" then p.readList
  else if op = "write" then p.writeList
  else if op = "execute" then p.executeList
  else []

structure MemoryBlock where
  buffer : List Nat
  version : Nat
  permissions : BlockPerms
deriving Repr, DecidableEq

/-- MemoryBlock._checkAccess.  The source computes allowedApps.includes(*)
and returns that Boolean; it receives no requesting AppID at all.  Both
call sites (read and write) discard this return value. -/
def MemoryBlock.checkAccess (b : MemoryBlock) (permission : String) : Bool :=
  (b.permissions.forOp permission).contains "*"

/-- MemoryBlock.read(offset, length).  The source computes
readLength = length || (buffer.length - offset) (so an undefined or zero
length means to-end, possibly a negative number), throws on
offset + readLength > buffer.length, and returns
buffer.slice(offset, offset + readLength).  The _checkAccess call is made
and its result discarded, exactly as in the source. -/
def MemoryBlock.read (b : MemoryBlock) (offset : Nat) (length? : Option Nat) :
    Except String (List Nat) :=
  let _perm := b.checkAccess "read"
  let readLength : Int :=
    match length? with
    | none => (b.buffer.length : Int) - (offset : Int)
    | some 0 => (b.buffer.length : Int) - (offset : Int)
    | some n => (n : Int)
  if (offset : Int) + readLength > (b.buffer.length : Int) then
    .error "Read beyond buffer bounds"
  else
    .ok (jsSlice b.buffer (offset : Int) ((offset : Int) + readLength))

/-- MemoryBlock.write(offset, data).  Throws on
offset + data.length > buffer.length, otherwise copies data into the buffer
at offset and increments config.version by one.  The _checkAccess call is
made and its result discarded, exactly as in the source. -/
def MemoryBlock.write (b : MemoryBlock) (offset : Nat) (data : List Nat) :
    Except String MemoryBlock :=
  let _perm := b.checkAccess "write"
  if offset + data.length > b.buffer.length then
    .error "Write beyond buffer bounds"
  else
    .ok { b with
      buffer := b.buffer.take offset ++ data ++ b.buffer.drop (offset + data.length),
      version := b.version + 1 }

/-- Result object of MemoryManager.compareAndSwap: bytes is the previous
slice on success and the current slice on failure. -/
structure CasResult where
  success : Bool
  bytes : List Nat
  block : MemoryBlock
deriving Repr, DecidableEq

/-- MemoryManager.compareAndSwap(block_id, offset, expected, new_value),
stated over the block itself: reads expected.length bytes at offset,
compares with expected, and on equality performs the write.  The preceding
attachMemoryBlock call only resolves block_id to the block and records an
attachment; it does not touch buffer or version and is elided here. -/
def compareAndSwap (b : MemoryBlock) (offset : Nat) (expected newValue : List Nat) :
    Except String CasResult :=
  match b.read offset (some expected.length) with
  | .error e => .error e
  | .ok currentData =>
    if currentData = expected then
      match b.write offset newValue with
      | .error e => .error e
      | .ok b2 => .ok ⟨true, expected, b2⟩
    else
      .ok ⟨false, currentData, b⟩

/-- Default permissions of _getDefaultPermissions: read and write allow all
via the wildcard, execute allows none. -/
def defaultBlockPerms : BlockPerms := ⟨["*"], ["*"], []⟩

/-- A block with no wildcard and no app in any permission list: the
permission map denies every operation to every app. -/
def deniedBlock : MemoryBlock :=
  { buffer := [1, 2, 3, 4], version := 1, permissions := ⟨[], [], []⟩ }

/-- The CAS demonstration block of the specification: fresh block of size
16, created with version 1 and default permissions. -/
def casBlock : MemoryBlock :=
  { buffer := List.replicate 16 0, version := 1, permissions := defaultBlockPerms }

/-- Byte values of the ASCII string hello. -/
def helloBytes : List Nat := [104, 101, 108, 108, 111]

/-- Byte values of the ASCII string world. -/
def worldBytes : List Nat := [119, 111, 114, 108, 100]

/-- A small block of size 8 used for boundary checks. -/
def boundaryBlock : MemoryBlock :=
  { buffer := List.replicate 8 0, version := 1, permissions := defaultBlockPerms }

/-!
## Pool creation (src/server/poolManager.js, PoolManager.createPool)

createPool declares  const poolConfig = ... and later, when the encrypted
flag is set, executes  poolConfig = await this._prepareEncryptedPool(...).
Assignment to a const binding throws a TypeError in JavaScript, so that
line throws before the persistence write and before the in-memory map
insertions.  The embedding places that TypeError between the validation of
the pool configuration and the persistence write, at the position of the
offending line.
-/

/-- Policy map of a pool: policies[read|write|execute|admin]. -/
structure PoolPolicies where
  readPolicy : List String
  writePolicy : List String
  executePolicy : List String
  adminPolicy : List String
deriving Repr, DecidableEq

/-- The _getDefaultPolicies object: read, write and execute allow all via
the wildcard, admin allows none. -/
def defaultPoolPolicies : PoolPolicies := ⟨["*"], ["*"], ["*"], []⟩

/-- The poolConfig object assembled by createPool (the fields the manager
later reads; created and updated timestamps are not modelled). -/
structure PoolConfig where
  name : String
  ptype : String
  encrypted : Bool
  owners : List String
  policies : PoolPolicies
  autoCreate : Bool
  maxMemoryBlocks : Nat
  maxTriggers : Nat
deriving Repr, DecidableEq

/-- The properties argument of createPool, restricted to the keys the
method reads.  Free-form keys spread over the config can shadow tracked
fields in the source; up to the throw the claims are about, the control
flow does not depend on them. -/
structure CreatePoolProps where
  owners : Option (List String) := none
  policies : Option PoolPolicies := none
  autoCreate : Bool := false
  maxMemoryBlocks : Option Nat := none
  maxTriggers : Option Nat := none
deriving Repr

/-- State of the PoolManager relevant to createPool: the pools map keys,
the poolMetadata map, the poolMembership map, and the set of pool rows
written through persistence.createPool. -/
structure PoolMgrState where
  pools : List String
  poolMetadata : JMap PoolConfig
  poolMembership : JMap (List String)
  persistedPools : List String
deriving Repr

/-- The character class [a-zA-Z0-9._-] shared by AppID and pool-name
validation regexes. -/
def isIdentChar (c : Char) : Bool :=
  c.isAlphanum || c = '.' || c = '_' || c = '-'

/-- PoolManager.validatePoolType. -/
def validatePoolType (t : String) : Bool :=
  t = "local" || t = "global" || t = "encrypted"

/-- PoolManager._validatePoolConfig.  The owners-is-array and
policies-is-object checks hold by typing here; the numeric-limit checks are
skipped by the source when the value is 0 (falsy), which jsOrNat-produced
values never are. -/
def validatePoolConfig (c : PoolConfig) : Except String Unit :=
  if c.name = "" then
    .error "Pool name is required and must be a string"
  else if ¬ c.name.toList.all isIdentChar then
    .error "Pool name contains invalid characters"
  else if c.name.length > 64 then
    .error "Pool name cannot exceed 64 characters"
  else if ¬ validatePoolType c.ptype then
    .error ("Invalid pool type: " ++ c.ptype)
  else if c.ptype = "encrypted" && !c.encrypted then
    .error "Encrypted pool type requires encrypted flag to be true"
  else
    .ok ()

/-- PoolManager.createPool(name, type, encrypted, properties).  An error
result models a thrown exception: the caller state is unchanged, as every
throw in the source happens before any map or persistence mutation. -/
def createPool (st : PoolMgrState) (name ptype : String) (encrypted : Bool)
    (props : CreatePoolProps) : Except String (PoolConfig × PoolMgrState) :=
  if name = "" then
    .error "Pool name is required and must be a string"
  else if st.pools.contains name then
    .error ("Pool already exists: " ++ name)
  else if ¬ validatePoolType ptype then
    .error ("Invalid pool type: " ++ ptype)
  else
    -- Force encryption for the encrypted pool type
    let encrypted2 := if ptype = "encrypted" && !encrypted then true else encrypted
    let poolConfig : PoolConfig :=
      { name := name
        ptype := ptype
        encrypted := encrypted2
        owners := props.owners.getD []
        policies := props.policies.getD defaultPoolPolicies
        autoCreate := props.autoCreate
        maxMemoryBlocks := jsOrNat props.maxMemoryBlocks 1000
        maxTriggers := jsOrNat props.maxTriggers 10000 }
    match validatePoolConfig poolConfig with
    | .error e => .error e
    | .ok _ =>
      if encrypted2 then
        -- poolConfig = await this._prepareEncryptedPool(name, poolConfig):
        -- reassignment of the const binding poolConfig throws here.
        .error "TypeError: Assignment to constant variable."
      else
        let st2 := { st with persistedPools := st.persistedPools ++ [name] }
        .ok (poolConfig,
          { st2 with
            pools := st2.pools ++ [name]
            poolMetadata := st2.poolMetadata.set name poolConfig
            poolMembership := st2.poolMembership.set name [] })

/-- An empty pool-manager state. -/
def emptyPoolMgr : PoolMgrState := ⟨[], [], [], []⟩

/-!
## Trigger router (src/unnamed/part_007, class TriggerRouter and TriggerRecord)

Connections come from the transport layer (src/server/transport.js): a
connection has a numeric id and an isActive flag, and Connection.send
returns false when the connection is inactive and true otherwise (the
serialization inside never fails on the structured messages modelled
here).  Outbound wire traffic is collected into an explicit outbox list of
(connection id, message) pairs instead of socket writes.
-/

/-- A transport connection: numeric id and liveness flag. -/
structure Conn where
  id : Nat
  isActive : Bool
deriving Repr, DecidableEq

/-- Connection.send result: false when the connection is inactive. -/
def Conn.sendOk (c : Conn) : Bool := c.isActive

/-- A trigger message as validated by the protocol codec.  Fields the
router never reads (payload, flags, timestamp) are omitted; payload is
opaque to the server. -/
structure TriggerMsg where
  id : String
  origin : Option String := none
  trigger : Option String := none
  process : Option String := none
  pool : Option String := none
  destination : Option String := none
  ttl : Option Nat := none
deriving Repr, DecidableEq

/-- A constructed reply message (ProtocolParser.createError and friends).
The fresh uuid that _createMessage draws for the id field is
nondeterministic and irrelevant to routing; it is modelled as the empty
string. -/
structure WireMsg where
  mtype : String
  correlationId : Option String
  status : Option String
  errorText : Option String
  errorCode : Option String
deriving Repr, DecidableEq

/-- ProtocolParser.createError(originalMessage, error, errorCode). -/
def createError (originalId : Option String) (errorText : String)
    (errorCode : String) : WireMsg :=
  { mtype := "error", correlationId := originalId, status := some "error",
    errorText := some errorText, errorCode := some errorCode }

/-- ProtocolParser.createTimeoutError(originalMessage). -/
def createTimeoutError (originalId : Option String) : WireMsg :=
  createError originalId "Request timeout" "TIMEOUT"

/-- A message leaving the server: either a constructed reply or a
forwarded trigger message. -/
inductive OutMsg where
  | err (m : WireMsg)
  | trig (m : TriggerMsg)
deriving Repr, DecidableEq

/-- An app registration as the router sees it through the AppRegistry:
getApp yields the appId, the bound connection and the trigger list. -/
structure RApp where
  appId : String
  connection : Option Conn
  triggers : List String
deriving Repr, DecidableEq

/-- AppRegistration.isActive: a live connection exists. -/
def RApp.isActive (a : RApp) : Bool :=
  match a.connection with
  | some c => c.isActive
  | none => false

/-- AppRegistration.send: forwards over the connection when active,
returns false otherwise. -/
def RApp.sendOk (a : RApp) : Bool :=
  match a.connection with
  | some c => if a.isActive then c.sendOk else false
  | none => false

/-- The surrounding components the router consults, frozen for the course
of one message: the AppRegistry maps and the PoolManager membership index.
pools lists the pool names visible to getPool (the in-memory map backed by
the durable store; only existence is ever tested on this path, so the
loaded metadata is not carried). -/
structure RouterEnv where
  apps : JMap RApp
  conns : AList Nat String
  triggerMappings : JMap (List String)
  pools : List String
  appPoolMembership : JMap (List String)
deriving Repr

/-- AppRegistry.getAppByConnection. -/
def RouterEnv.getAppByConnection (env : RouterEnv) (connId : Nat) : Option RApp :=
  match env.conns.get? connId with
  | some appId => env.apps.get? appId
  | none => none

/-- AppRegistry.getAppTriggers. -/
def RouterEnv.getAppTriggers (env : RouterEnv) (appId : String) : List String :=
  match env.apps.get? appId with
  | some r => r.triggers
  | none => []

/-- AppRegistry.getTriggersHandlers: the appIds indexed under the trigger
name, resolved to registrations and filtered to active apps. -/
def RouterEnv.getTriggersHandlers (env : RouterEnv) (triggerName : String) :
    List RApp :=
  (((env.triggerMappings.get? triggerName).getD []).filterMap
    (fun a => env.apps.get? a)).filter RApp.isActive

/-- PoolManager.validatePoolMembership. -/
def RouterEnv.validatePoolMembership (env : RouterEnv) (appId poolName : String) :
    Bool :=
  if appId = "" || poolName = "" then false
  else match env.appPoolMembership.get? appId with
    | some l => l.contains poolName
    | none => false

/-- PoolManager.getAppPools. -/
def RouterEnv.getAppPools (env : RouterEnv) (appId : String) : List String :=
  (env.appPoolMembership.get? appId).getD []

/-- An in-flight trigger record.  The source constructor
TriggerRecord(originalMessage, originConnection, options) copies only
options.pool, options.handlers, options.created and options.ttl; the
origin and destination passed inside options by createTriggerRecord are
never stored, so the properties originAppId and origin that other methods
later read stay undefined on every record.  They are carried here as
Option fields that the constructor always sets to none. -/
structure TriggerRecordR where
  id : String
  originalMessage : TriggerMsg
  originConnection : Option Conn
  pool : Option String
  handlers : List String
  created : Nat
  ttl : Nat
  dispatched : Option Nat
  dispatchedTo : Option String
  completed : Bool
  originAppId : Option String
  origin : Option String
deriving Repr, DecidableEq

/-- Options object handed to the TriggerRecord constructor by
createTriggerRecord: the spread of the caller metadata plus id, origin,
destination, created and ttl. -/
structure RecordOptions where
  pool : Option String := none
  handlers : List String := []
  created : Option Nat := none
  ttl : Option Nat := none
  triggerName : Option String := none
  origin : Option String := none
  destination : Option String := none
deriving Repr

/-- The TriggerRecord constructor.  now stands for the Date.now() fallback
of options.created.  Note the dropped options.origin and
options.destination, and the ttl fallback options.ttl || 30000. -/
def TriggerRecordR.make (msg : TriggerMsg) (oc : Option Conn)
    (opts : RecordOptions) (now : Nat) : TriggerRecordR :=
  { id := msg.id
    originalMessage := msg
    originConnection := oc
    pool := opts.pool
    handlers := opts.handlers
    created := jsOrNat opts.created now
    ttl := jsOrNat opts.ttl 30000
    dispatched := none
    dispatchedTo := none
    completed := false
    originAppId := none
    origin := none }

/-- Router statistics counters (averageResponseTime is a floating-point
moving average and is not modelled). -/
structure RouterStats where
  totalTriggers : Nat
  successfulTriggers : Nat
  failedTriggers : Nat
  timeoutTriggers : Nat
  shortCircuitedCalls : Nat
deriving Repr, DecidableEq

/-- Mutable state of the TriggerRouter: the in-flight record table, the
round-robin counters, the statistics, and the configuration fields read on
these paths. -/
structure RouterState where
  triggerRecords : JMap TriggerRecordR
  roundRobinCounters : JMap Nat
  stats : RouterStats
  defaultTTL : Nat
  maxConcurrentTriggers : Nat
deriving Repr, DecidableEq

/-- TriggerRouter._cleanupTriggerRecord: cancel the timer (not modelled)
and delete the record from the table. -/
def cleanupTriggerRecord (st : RouterState) (id : String) : RouterState :=
  { st with triggerRecords := st.triggerRecords.del id }

/-- The ttl stored on a record created by handleTriggerRequest, composing
the three fallbacks the value passes through in the source:
message.ttl || defaultTTL in handleTriggerRequest, metadata.ttl ||
defaultTTL in createTriggerRecord, and options.ttl || 30000 in the
TriggerRecord constructor. -/
def recordTtl (messageTtl : Option Nat) (defaultTTL : Nat) : Nat :=
  jsOrNat (some (jsOrNat (some (jsOrNat messageTtl defaultTTL)) defaultTTL)) 30000

/-- TriggerRouter.createTriggerRecord(id, origin, destination, metadata).
The ephemeral persistence mirror write is attempted under a catch that
only logs, so it is not carried in the state. -/
def createTriggerRecord (st : RouterState) (id origin : String)
    (destination : Option String) (meta : RecordOptions) (msg : TriggerMsg)
    (oc : Option Conn) (now : Nat) :
    Except String (TriggerRecordR × RouterState) :=
  if id = "" || origin = "" then
    .error "Trigger record requires id and origin"
  else if (st.triggerRecords.get? id).isSome then
    .error ("Trigger record with id already exists: " ++ id)
  else
    let record := TriggerRecordR.make msg oc
      { meta with
        origin := some origin
        destination := destination
        created := some (jsOrNat meta.created now)
        ttl := some (jsOrNat meta.ttl st.defaultTTL) } now
    .ok (record, { st with triggerRecords := st.triggerRecords.set id record })

/-- TriggerRouter.validateRouting(origin, destination, trigger): the
destination must register the trigger and share at least one pool with the
origin. -/
def validateRouting (env : RouterEnv) (origin : Option String)
    (destination triggerName : String) : Except String Unit :=
  if ¬ strTruthy origin || destination = "" || triggerName = "" then
    .error "Origin, destination, and trigger name are required for routing validation"
  else
    let originId := jsShow origin
    match env.apps.get? originId with
    | none => .error ("Origin app not found: " ++ originId)
    | some _ =>
      match env.apps.get? destination with
      | none => .error ("Destination app not found: " ++ destination)
      | some _ =>
        if ¬ (env.getAppTriggers destination).contains triggerName then
          .error ("Destination app cannot handle trigger: " ++ triggerName)
        else
          let originPools := env.getAppPools originId
          let destinationPools := env.getAppPools destination
          if (originPools.filter (fun p => destinationPools.contains p)) = [] then
            .error ("No common pools between origin and destination: " ++ originId)
          else
            .ok ()

/-- TriggerRouter.optimizeLocalRouting: both apps exist and
originApp.connection?.id === destinationApp.connection?.id.  When both
connections are absent the optional chains both yield undefined and the
strict equality holds, as in JavaScript. -/
def optimizeLocalRouting (env : RouterEnv) (origin destination : Option String) :
    Bool :=
  if ¬ strTruthy origin || ¬ strTruthy destination then false
  else
    match env.apps.get? (jsShow origin), env.apps.get? (jsShow destination) with
    | some a, some b =>
      (match a.connection, b.connection with
       | some c1, some c2 => c1.id = c2.id
       | none, none => true
       | _, _ => false)
    | _, _ => false

/-- TriggerRouter._selectRoundRobin: the counter key is
handlers[0]?.triggers?.[0] || default; the handler at counter mod length
is picked and the counter advanced. -/
def selectRoundRobin (st : RouterState) (handlers : List RApp) :
    Option RApp × RouterState :=
  let triggerName :=
    match handlers with
    | [] => "default"
    | h :: _ =>
      match h.triggers with
      | [] => "default"
      | t :: _ => jsOrStr (some t) "default"
  let counter := (st.roundRobinCounters.get? triggerName).getD 0
  (handlers.get? (counter % handlers.length),
   { st with roundRobinCounters := st.roundRobinCounters.set triggerName (counter + 1) })

/-- TriggerRouter.selectDestination(handlers, strategy).  routeTrigger
always passes the configured default strategy, the round-robin constant,
so only that arm of the strategy switch is reachable on the embedded
path; the unreachable arms (random, first-available, load-balanced) are
not carried. -/
def selectDestination (st : RouterState) (handlers : List RApp) :
    Option RApp × RouterState :=
  let activeHandlers := handlers.filter RApp.isActive
  match activeHandlers with
  | [] => (none, st)
  | [h] => (some h, st)
  | _ => selectRoundRobin st activeHandlers

/-- Result object of routeTrigger. -/
structure RouteResult where
  destination : RApp
  handlers : List RApp
  optimized : Bool
deriving Repr, DecidableEq

/-- TriggerRouter.routeTrigger(triggerMessage).  An error carries the
router state at the throw, since mutations made before the throw (the
round-robin counters, the short-circuit statistics) survive into the
catch of the caller. -/
def routeTrigger (env : RouterEnv) (st : RouterState) (msg : TriggerMsg) :
    Except (String × RouterState) (RouteResult × RouterState) :=
  if ¬ strTruthy msg.trigger then
    .error ("Invalid trigger message: missing trigger name", st)
  else
    let triggerName := jsShow msg.trigger
    let poolName := jsOrStr msg.pool "default"
    if strTruthy msg.destination then
      let dest := jsShow msg.destination
      match env.apps.get? dest with
      | none => .error ("Destination app not found: " ++ dest, st)
      | some destinationApp =>
        if ¬ (env.getAppTriggers dest).contains triggerName then
          .error ("Destination app cannot handle trigger: " ++ triggerName, st)
        else if ¬ env.validatePoolMembership dest poolName then
          .error ("Destination app is not a member of pool: " ++ poolName, st)
        else if ¬ destinationApp.isActive then
          .error ("Destination app is not active: " ++ dest, st)
        else
          match validateRouting env msg.origin dest triggerName with
          | .error e => .error (e, st)
          | .ok _ =>
            let optimized := optimizeLocalRouting env msg.origin msg.destination
            let st2 := if optimized then
                { st with stats := { st.stats with
                    shortCircuitedCalls := st.stats.shortCircuitedCalls + 1 } }
              else st
            .ok ({ destination := destinationApp, handlers := [destinationApp],
                   optimized := optimized }, st2)
    else
      -- findTriggerHandlers: registry handlers filtered by pool membership
      let handlers := (env.getTriggersHandlers triggerName).filter
        (fun h => env.validatePoolMembership h.appId poolName)
      if handlers = [] then
        .error ("No handlers found for trigger: " ++ triggerName ++
                " in pool: " ++ poolName, st)
      else
        match selectDestination st handlers with
        | (none, st2) =>
          .error ("No available destination for trigger: " ++ triggerName, st2)
        | (some destination, st2) =>
          match validateRouting env msg.origin destination.appId triggerName with
          | .error e => .error (e, st2)
          | .ok _ =>
            let optimized := optimizeLocalRouting env msg.origin
              (some destination.appId)
            let st3 := if optimized then
                { st2 with stats := { st2.stats with
                    shortCircuitedCalls := st2.stats.shortCircuitedCalls + 1 } }
              else st2
            .ok ({ destination := destination, handlers := handlers,
                   optimized := optimized }, st3)

/-- TriggerRouter._selectHandler(handlers, message): none on empty, the
sole element on a singleton; with several handlers the source picks a
random active one via Math.random.  Every call on the embedded path
passes the singleton routing destination, so the multi-handler arm is
resolved to the first active handler as a deterministic stand-in for the
random draw. -/
def selectHandler (handlers : List RApp) : Option RApp :=
  match handlers with
  | [] => none
  | [h] => some h
  | _ =>
    match handlers.filter RApp.isActive with
    | [] => none
    | h :: _ => some h

/-- TriggerRouter._dispatchTrigger(triggerRecord, handlers): selects the
handler, short-circuits intra-process calls with a
SHORT_CIRCUIT_NOT_IMPLEMENTED error reply, otherwise forwards the original
message to the handler and stamps dispatchedTo and dispatched on the
record (the record lives in the table, so the table entry is updated). -/
def dispatchTrigger (env : RouterEnv) (st : RouterState)
    (record : TriggerRecordR) (handlers : List RApp) (now : Nat) :
    Except (String × RouterState) (RouterState × List (Nat × OutMsg)) :=
  let msg := record.originalMessage
  match selectHandler handlers with
  | none => .error ("No active handler available for trigger: " ++ jsShow msg.process, st)
  | some targetHandler =>
    if ¬ targetHandler.isActive then
      .error ("No active handler available for trigger: " ++ jsShow msg.process, st)
    else
      let originApp? := record.originConnection.bind
        (fun c => env.getAppByConnection c.id)
      match originApp? with
      | some originApp =>
        if originApp.appId = targetHandler.appId then
          -- Short-circuiting intra-process call: error reply, cleanup, return
          let errorResponse := createError (some msg.id)
            "Intra-process trigger calls not yet supported"
            "SHORT_CIRCUIT_NOT_IMPLEMENTED"
          let out :=
            match record.originConnection with
            | some c => if c.isActive then [(c.id, OutMsg.err errorResponse)] else []
            | none => []
          let st2 := { st with stats := { st.stats with
              failedTriggers := st.stats.failedTriggers + 1 } }
          .ok (cleanupTriggerRecord st2 record.id, out)
        else
          if ¬ targetHandler.sendOk then
            .error ("Failed to dispatch trigger to handler: " ++ targetHandler.appId, st)
          else
            let record2 := { record with
              dispatchedTo := some targetHandler.appId, dispatched := some now }
            let out :=
              match targetHandler.connection with
              | some c => [(c.id, OutMsg.trig msg)]
              | none => []
            .ok ({ st with triggerRecords := st.triggerRecords.set record.id record2 },
                 out)
      | none =>
        -- originApp undefined: the short-circuit test is false, dispatch proceeds
        if ¬ targetHandler.sendOk then
          .error ("Failed to dispatch trigger to handler: " ++ targetHandler.appId, st)
        else
          let record2 := { record with
            dispatchedTo := some targetHandler.appId, dispatched := some now }
          let out :=
            match targetHandler.connection with
            | some c => [(c.id, OutMsg.trig msg)]
            | none => []
          .ok ({ st with triggerRecords := st.triggerRecords.set record.id record2 },
               out)

/-- TriggerRouter.handleTriggerRequest(message, connection).  The catch
sends createError(message, error, TRIGGER_ROUTING_ERROR) over the origin
connection and increments failedTriggers; mutations made before the throw
(totalTriggers, round-robin counters) survive, which the Except error
value carries.  Timer scheduling (_setTriggerTimeout) and event emission
are not modelled. -/
def handleTriggerRequest (env : RouterEnv) (st : RouterState) (msg : TriggerMsg)
    (conn : Conn) (now : Nat) : RouterState × List (Nat × OutMsg) :=
  let st0 := { st with stats := { st.stats with
      totalTriggers := st.stats.totalTriggers + 1 } }
  let tryBody : Except (String × RouterState) (RouterState × List (Nat × OutMsg)) :=
    if st0.triggerRecords.size ≥ st0.maxConcurrentTriggers then
      .error ("Maximum concurrent triggers exceeded: " ++
              toString st0.maxConcurrentTriggers, st0)
    else
      let triggerName? := jsOrStrOpt msg.trigger msg.process
      match env.getAppByConnection conn.id with
      | none => .error ("Origin application not registered", st0)
      | some originApp =>
        let poolName := jsOrStr msg.pool "default"
        if ¬ env.pools.contains poolName then
          .error ("Pool not found: " ++ poolName, st0)
        else if ¬ env.validatePoolMembership originApp.appId poolName then
          .error ("App is not a member of pool: " ++ poolName, st0)
        else
          -- message.origin = originApp.appId (mutation of the message)
          let msg2 := { msg with origin := some originApp.appId }
          match routeTrigger env st0 msg2 with
          | .error (e, stE) => .error (e, stE)
          | .ok (routingResult, st1) =>
            match createTriggerRecord st1 msg.id originApp.appId msg2.destination
              { pool := some poolName
                triggerName := triggerName?
                handlers := routingResult.handlers.map RApp.appId
                created := some now
                ttl := some (jsOrNat msg.ttl st1.defaultTTL) } msg2 (some conn) now with
            | .error e => .error (e, st1)
            | .ok (triggerRecord, st2) =>
              dispatchTrigger env st2 triggerRecord [routingResult.destination] now
  match tryBody with
  | .ok (st2, out) => (st2, out)
  | .error (e, stE) =>
    ({ stE with stats := { stE.stats with
        failedTriggers := stE.stats.failedTriggers + 1 } },
     [(conn.id, OutMsg.err (createError (some msg.id) e "TRIGGER_ROUTING_ERROR"))])

/-- TriggerRouter._routeResponse(triggerRecord, responseMessage): when the
original trigger message carries a destination, the response is sent to
that app (when found and active); only otherwise does it go back to the
origin connection.  The result is the id of the connection the response
was written to. -/
def routeResponse (env : RouterEnv) (record : TriggerRecordR) :
    Except String Nat :=
  let originalMessage := record.originalMessage
  let targetConnection? : Except String (Option Conn) :=
    if strTruthy originalMessage.destination then
      match env.apps.get? (jsShow originalMessage.destination) with
      | some targetApp =>
        if targetApp.isActive then .ok targetApp.connection
        else .error ("Destination app not found or inactive: " ++
                     jsShow originalMessage.destination)
      | none => .error ("Destination app not found or inactive: " ++
                        jsShow originalMessage.destination)
    else
      .ok record.originConnection
  match targetConnection? with
  | .error e => .error e
  | .ok none => .error "Target connection for response is not active"
  | .ok (some c) =>
    if ¬ c.isActive then .error "Target connection for response is not active"
    else if ¬ c.sendOk then .error "Failed to send response to target connection"
    else .ok c.id

/-- TriggerRouter._timeoutTriggerRecord(triggerRecord): a TIMEOUT error
reply to the origin connection when it is live, the timeout counter, and
removal of the record. -/
def timeoutTriggerRecord (st : RouterState) (record : TriggerRecordR) :
    RouterState × List (Nat × OutMsg) :=
  let timeoutError := createTimeoutError (some record.originalMessage.id)
  let out :=
    match record.originConnection with
    | some c => if c.isActive then [(c.id, OutMsg.err timeoutError)] else []
    | none => []
  let st2 := { st with stats := { st.stats with
      timeoutTriggers := st.stats.timeoutTriggers + 1 } }
  (cleanupTriggerRecord st2 record.id, out)

/-- Strict equality of a possibly-undefined string property against a
string, as the === of the source: undefined === s is false. -/
def jsStrictEq (o : Option String) (s : String) : Bool :=
  match o with
  | some v => v = s
  | none => false

/-- TriggerRouter._handleAppDisconnection(appId): filter the in-flight
table by record.originAppId === appId || record.origin === appId and time
out every match. -/
def handleAppDisconnection (st : RouterState) (appId : String) :
    RouterState × List (Nat × OutMsg) :=
  let pendingTriggers := st.triggerRecords.filter
    (fun kv => jsStrictEq kv.2.originAppId appId || jsStrictEq kv.2.origin appId)
  pendingTriggers.foldl
    (fun acc kv =>
      let (st2, out) := timeoutTriggerRecord acc.1 kv.2
      (st2, acc.2 ++ out))
    (st, [])

/-!
## App registry with pool manager and persistence
   (src/server/appRegistry.js and src/server/poolManager.js)

The handshake, rehydration and disconnection logic operates on a combined
state: the registry maps, the pool-manager membership index and metadata,
and the persistence rows.  The persistence implementation itself is not in
the sources; its getApp and registerApp contract is modelled from the API
documentation shipped in the repository (src/unnamed/part_006): registerApp
upserts the row (app_id, triggers, pools, metadata) and getApp returns the
stored pools, triggers and meta, or null.  Timestamps (registered,
last_seen) and the lastSeenApps map only feed the cache-age sweeper and are
not modelled.
-/

/-- A rehydration-cache entry and likewise a persisted app row:
pools, triggers and metadata. -/
structure CachedReg where
  pools : List String
  triggers : List String
  meta : JMap String
deriving Repr, DecidableEq

/-- An AppRegistration as stored in the live map. -/
structure Registration where
  appId : String
  connection : Option Conn
  pools : List String
  triggers : List String
  meta : JMap String
  rehydrated : Bool
deriving Repr, DecidableEq

/-- Pool metadata the membership path reads: the encrypted flag and the
policy map (always present, set at creation with the defaults). -/
structure PoolMeta where
  encrypted : Bool
  policies : PoolPolicies
deriving Repr, DecidableEq

/-- policies[requiredPermission] || [] of _checkPoolAccess. -/
def PoolPolicies.forPermission (p : PoolPolicies) (perm : String) : List String :=
  if perm = "read" then p.readPolicy
  else if perm = "write" then p.writePolicy
  else if perm = "execute" then p.executePolicy
  else if perm = "admin" then p.adminPolicy
  else []

/-- The combined state of registry, pool manager and persistence. -/
structure RegState where
  apps : JMap Registration
  conns : AList Nat String
  triggerMappings : JMap (List String)
  rehydrationCache : JMap CachedReg
  poolsMem : JMap PoolMeta
  appPoolMembership : JMap (List String)
  poolMembership : JMap (List String)
  persistedApps : JMap CachedReg
  persistedPools : JMap PoolMeta
deriving Repr, DecidableEq

/-- The security module hook of _checkPoolAccess: consulted only for
encrypted pools.  hasSecurity mirrors the presence test
typeof this.security.checkPoolAccess === function. -/
structure RegEnv where
  hasSecurity : Bool
  securityCheck : String → String → String → Bool

/-- AppRegistry._validateAppId: string of 1 to 128 characters over
[a-zA-Z0-9._-]. -/
def validAppId (s : String) : Bool :=
  s ≠ "" && decide (s.length ≤ 128) && s.toList.all isIdentChar

/-- AppRegistry._validatePools: each pool name nonempty, at most 64
characters, over the same character class. -/
def validPoolName (s : String) : Bool :=
  s ≠ "" && decide (s.length ≤ 64) && s.toList.all isIdentChar

def validPoolList (l : List String) : Bool := l.all validPoolName

/-- AppRegistry._validateTriggerName: nonempty, at most 128 characters,
over [a-zA-Z0-9._:-]. -/
def validTriggerName (s : String) : Bool :=
  s ≠ "" && decide (s.length ≤ 128) &&
    s.toList.all (fun c => isIdentChar c || c = ':')

def validTriggerList (l : List String) : Bool := l.all validTriggerName

/-- AppRegistry._addTriggerMapping: insert the appId into the set indexed
under the trigger name, creating the set when absent. -/
def addTriggerMapping (st : RegState) (triggerName appId : String) : RegState :=
  let cur := (st.triggerMappings.get? triggerName).getD []
  let cur2 := if cur.contains appId then cur else cur ++ [appId]
  { st with triggerMappings := st.triggerMappings.set triggerName cur2 }

/-- AppRegistry._removeTriggerMapping: delete the appId from the set and
drop the key once the set is empty. -/
def removeTriggerMapping (st : RegState) (triggerName appId : String) : RegState :=
  match st.triggerMappings.get? triggerName with
  | none => st
  | some l =>
    let l2 := l.erase appId
    if l2 = [] then { st with triggerMappings := st.triggerMappings.del triggerName }
    else { st with triggerMappings := st.triggerMappings.set triggerName l2 }

/-- The appIds currently indexed under a trigger name. -/
def lookupTrig (st : RegState) (triggerName : String) : List String :=
  (st.triggerMappings.get? triggerName).getD []

/-- PoolManager._checkPoolAccess(appId, poolName, requiredPermission):
for encrypted pools the security module (or, absent one, the admin policy)
must admit the app; then the policy list for the permission must contain
the wildcard or the app. -/
def checkPoolAccess (env : RegEnv) (st : RegState) (appId poolName perm : String) :
    Except String Unit :=
  match st.poolsMem.get? poolName with
  | none => .error ("Pool not found: " ++ poolName)
  | some meta =>
    let encCheck : Except String Unit :=
      if meta.encrypted then
        if env.hasSecurity then
          if env.securityCheck appId poolName perm then .ok ()
          else .error ("Access denied to encrypted pool: " ++ poolName)
        else
          if (meta.policies.forPermission "admin").contains appId then .ok ()
          else .error ("Access denied to encrypted pool: " ++ poolName)
      else .ok ()
    match encCheck with
    | .error e => .error e
    | .ok _ =>
      let allowedApps := meta.policies.forPermission perm
      if allowedApps.contains "*" || allowedApps.contains appId then .ok ()
      else .error ("Access denied: no permission for pool " ++ poolName)

/-- PoolManager.addAppToPool(app_id, pool_name): existence via the memory
map or the durable store, a getPool that loads a persisted pool into
memory (resetting its member set, as the source does), the read-permission
access check, then the two membership indexes (JS Set add, hence
idempotent).  Pool.addMember mirrors the poolMembership entry and is not
carried separately. -/
def addAppToPool (env : RegEnv) (st : RegState) (appId poolName : String) :
    Except String RegState :=
  if appId = "" then .error "app_id is required and must be a string"
  else if poolName = "" then .error "pool_name is required and must be a string"
  else if ¬ (st.poolsMem.hasKey poolName || st.persistedPools.hasKey poolName) then
    .error ("Pool not found: " ++ poolName)
  else
    let st := if st.poolsMem.hasKey poolName then st else
      match st.persistedPools.get? poolName with
      | some m =>
        { st with
          poolsMem := st.poolsMem.set poolName m
          poolMembership := st.poolMembership.set poolName [] }
      | none => st
    match checkPoolAccess env st appId poolName "read" with
    | .error e => .error e
    | .ok _ =>
      let appSet := (st.appPoolMembership.get? appId).getD []
      let appSet2 := if appSet.contains poolName then appSet else appSet ++ [poolName]
      let mem := (st.poolMembership.get? poolName).getD []
      let mem2 := if mem.contains appId then mem else mem ++ [appId]
      .ok { st with
        appPoolMembership := st.appPoolMembership.set appId appSet2
        poolMembership := st.poolMembership.set poolName mem2 }

/-- PoolManager.removeAppFromPool(app_id, pool_name): delete both
directions, dropping the app key when its pool set empties. -/
def removeAppFromPool (st : RegState) (appId poolName : String) :
    Except String RegState :=
  if appId = "" then .error "app_id is required and must be a string"
  else if poolName = "" then .error "pool_name is required and must be a string"
  else
    let st := match st.appPoolMembership.get? appId with
      | some l =>
        let l2 := l.erase poolName
        if l2 = [] then { st with appPoolMembership := st.appPoolMembership.del appId }
        else { st with appPoolMembership := st.appPoolMembership.set appId l2 }
      | none => st
    let st := match st.poolMembership.get? poolName with
      | some m => { st with poolMembership := st.poolMembership.set poolName (m.erase appId) }
      | none => st
    .ok st

/-- JavaScript object spread merge of metadata maps. -/
def mergeMeta (old new : JMap String) : JMap String :=
  new.foldl (fun acc kv => AList.set acc kv.1 kv.2) old

/-- AppRegistry.updateApp(app_id, updates).  Both validations are checked
before any mutation here; in the source an invalid triggers list would
leave the pools field already assigned, an error path no settled claim
exercises. -/
def updateApp (env : RegEnv) (st0 : RegState) (appId : String)
    (pools? triggers? : Option (List String)) (meta? : Option (JMap String)) :
    Except String (Registration × RegState) :=
  match st0.apps.get? appId with
  | none => .error ("App not found: " ++ appId)
  | some reg =>
    let oldTriggers := reg.triggers
    let oldPools := reg.pools
    if pools?.isSome && ¬ validPoolList (pools?.getD []) then
      .error "Invalid pools specification"
    else if triggers?.isSome && ¬ validTriggerList (triggers?.getD []) then
      .error "Invalid triggers specification"
    else
      let newPools := pools?.getD oldPools
      let newTriggers := triggers?.getD oldTriggers
      let st1 := match triggers? with
        | some ts =>
          let s := oldTriggers.foldl (fun s t => removeTriggerMapping s t appId) st0
          ts.foldl (fun s t => addTriggerMapping s t appId) s
        | none => st0
      let newMeta := match meta? with
        | some m => mergeMeta reg.meta m
        | none => reg.meta
      let reg2 := { reg with pools := newPools, triggers := newTriggers, meta := newMeta }
      let st2 := { st1 with apps := st1.apps.set appId reg2 }
      let syncRes : Except String RegState :=
        match pools? with
        | some _ =>
          let poolsToRemove := oldPools.filter (fun p => ¬ newPools.contains p)
          let poolsToAdd := newPools.filter (fun p => ¬ oldPools.contains p)
          match poolsToRemove.foldlM (fun s p => removeAppFromPool s appId p) st2 with
          | .error e => .error e
          | .ok s => poolsToAdd.foldlM (fun s p => addAppToPool env s appId p) s
        | none => .ok st2
      match syncRes with
      | .error e => .error e
      | .ok st3 =>
        .ok (reg2,
          { st3 with
            rehydrationCache :=
              st3.rehydrationCache.set appId ⟨newPools, newTriggers, newMeta⟩
            persistedApps :=
              st3.persistedApps.set appId ⟨newPools, newTriggers, newMeta⟩ })

/-- AppRegistry.registerApp(app_id, triggers, pools, metadata, connection).
A duplicate registration delegates to updateApp; otherwise the live map,
the connection map, the trigger index, the rehydration cache, the pool
memberships and the persistence row are written in source order.  The
persistence write failure is only logged in the source, so it always
lands here. -/
def registerApp (env : RegEnv) (st : RegState) (appId : String)
    (triggers pools : List String) (meta : JMap String) (conn : Option Conn) :
    Except String (Registration × RegState) :=
  if ¬ validAppId appId then .error "Invalid app_id format"
  else if ¬ validTriggerList triggers then .error "Invalid triggers specification"
  else if ¬ validPoolList pools then .error "Invalid pools specification"
  else if st.apps.hasKey appId then
    updateApp env st appId (some pools) (some triggers) (some meta)
  else
    let reg : Registration :=
      { appId := appId, connection := conn, pools := pools, triggers := triggers,
        meta := meta, rehydrated := false }
    let st := { st with apps := st.apps.set appId reg }
    let st := match conn with
      | some c => { st with conns := st.conns.set c.id appId }
      | none => st
    let st := triggers.foldl (fun s t => addTriggerMapping s t appId) st
    let st := { st with rehydrationCache :=
      st.rehydrationCache.set appId ⟨pools, triggers, meta⟩ }
    match pools.foldlM (fun s p => addAppToPool env s appId p) st with
    | .error e => .error e
    | .ok st =>
      .ok (reg, { st with persistedApps :=
        st.persistedApps.set appId ⟨pools, triggers, meta⟩ })

/-- AppRegistry.rehydrateApp(app_id, connection): the persisted row is
preferred, the cache is the fallback; an invalid stored trigger list is
cleared; the registration, connection map, trigger index, cache and pool
memberships are restored.  rehydrateApp does not write persistence. -/
def rehydrateApp (env : RegEnv) (st : RegState) (appId : String) (conn : Conn) :
    Except String (Registration × RegState) :=
  let appData? : Option CachedReg :=
    match st.persistedApps.get? appId with
    | some d => some d
    | none => st.rehydrationCache.get? appId
  match appData? with
  | none => .error ("No rehydration data available for app: " ++ appId)
  | some appData =>
    let triggers := if validTriggerList appData.triggers then appData.triggers else []
    let reg : Registration :=
      { appId := appId, connection := some conn, pools := appData.pools,
        triggers := triggers, meta := appData.meta, rehydrated := true }
    let st :=
      { st with
        apps := st.apps.set appId reg
        conns := st.conns.set conn.id appId }
    let st := triggers.foldl (fun s t => addTriggerMapping s t appId) st
    let st := { st with rehydrationCache :=
      st.rehydrationCache.set appId ⟨appData.pools, triggers, appData.meta⟩ }
    match appData.pools.foldlM (fun s p => addAppToPool env s appId p) st with
    | .error e => .error e
    | .ok st => .ok (reg, st)

/-- AppRegistry._hasRehydrationData: the cache first, then the durable
store. -/
def hasRehydrationData (st : RegState) (appId : String) : Bool :=
  st.rehydrationCache.hasKey appId || (st.persistedApps.get? appId).isSome

/-- A handshake message after codec validation.  The protocol schema for
the handshake kind requires type and app_id and checks the length limits;
the 16 MiB message-size guard is a framing concern not modelled. -/
structure HandshakeMsg where
  id : String
  app_id : String
  pools : Option (List String) := none
  triggers : Option (List String) := none
  metadata : Option (JMap String) := none
deriving Repr

/-- The schema validation the codec and processHandshake run first:
app_id truthy and at most 128 characters, every pool name at most 64,
every trigger name at most 128. -/
def validateHandshakeMsg (m : HandshakeMsg) : Bool :=
  m.app_id ≠ "" && decide (m.app_id.length ≤ 128) &&
  (match m.pools with
   | none => true
   | some ps => ps.all (fun p => decide (p.length ≤ 64))) &&
  (match m.triggers with
   | none => true
   | some ts => ts.all (fun t => decide (t.length ≤ 128)))

/-- The assigned object of the handshake_ack the server replies with. -/
structure AckAssigned where
  app_id : String
  pools : List String
  triggers : List String
  rehydrated : Bool
deriving Repr, DecidableEq

/-- AppRegistry.processHandshake(message, connection): validation, the
rehydration classification (triggers empty and rehydration data present),
then rehydrateApp or registerApp, and the handshake_ack carrying the
effective pools, triggers and rehydrated flag.  An error result models the
thrown error that the caller answers with a HANDSHAKE_ERROR reply. -/
def processHandshake (env : RegEnv) (st : RegState) (msg : HandshakeMsg)
    (conn : Conn) : Except String (Registration × AckAssigned × RegState) :=
  if ¬ validateHandshakeMsg msg then .error "Invalid handshake message"
  else
    let appId := msg.app_id
    let pools := msg.pools.getD ["default"]
    let triggers := msg.triggers.getD []
    let meta := msg.metadata.getD []
    if ¬ validAppId appId then .error "Invalid app_id format"
    else if ¬ validPoolList pools then .error "Invalid pools specification"
    else if ¬ validTriggerList triggers then .error "Invalid triggers specification"
    else
      let isRehydration := triggers = [] && hasRehydrationData st appId
      match (if isRehydration then rehydrateApp env st appId conn
             else registerApp env st appId triggers pools meta (some conn)) with
      | .error e => .error e
      | .ok (reg, st2) =>
        .ok (reg,
          { app_id := appId, pools := reg.pools, triggers := reg.triggers,
            rehydrated := isRehydration },
          st2)

/-- AppRegistry.handleDisconnection(connection): resolve the bound appId,
remove its trigger-index entries, retain the registration in the
rehydration cache, and drop the live and connection map entries.  No call
to the pool manager is made on this path. -/
def handleDisconnection (st : RegState) (conn : Conn) : RegState :=
  match st.conns.get? conn.id with
  | none => st
  | some appId =>
    let st2 := match st.apps.get? appId with
      | some reg =>
        let s := reg.triggers.foldl (fun s t => removeTriggerMapping s t appId) st
        { s with rehydrationCache :=
          s.rehydrationCache.set appId ⟨reg.pools, reg.triggers, reg.meta⟩ }
      | none => st
    { st2 with apps := st2.apps.del appId, conns := st2.conns.del conn.id }

/-- A pool is joinable by an app when it is loaded in memory, is not
encrypted, and its read policy admits the wildcard or the app. -/
def poolJoinable (st : RegState) (appId poolName : String) : Bool :=
  match st.poolsMem.get? poolName with
  | some m => !m.encrypted &&
      ((m.policies.forPermission "read").contains "*" ||
       (m.policies.forPermission "read").contains appId)
  | none => false

/-!
## Concrete fixtures for counterexamples and witnesses
-/

/-- Connection of app B, the trigger originator of the worked examples. -/
def connB : Conn := ⟨1, true⟩

/-- Connection of app A, the trigger handler of the worked examples. -/
def connA : Conn := ⟨2, true⟩

/-- The echo trigger of the first end-to-end example of the specification:
B targets A explicitly via the destination field. -/
def msgT1 : TriggerMsg :=
  { id := "T1", origin := some "B", trigger := some "echo",
    pool := some "default", destination := some "A" }

/-- The in-flight record handleTriggerRequest creates for msgT1, built
through the embedded constructor exactly as createTriggerRecord does. -/
def recT1 : TriggerRecordR :=
  TriggerRecordR.make msgT1 (some connB)
    { pool := some "default", handlers := ["A"], triggerName := some "echo",
      origin := some "B", destination := some "A",
      created := some 0, ttl := some 30000 } 0

/-- recT1 after a successful dispatch to A stamped dispatchedTo. -/
def recT1d : TriggerRecordR :=
  { recT1 with dispatchedTo := some "A", dispatched := some 0 }

/-- Router environment of the worked examples: A handles echo, both apps
live in the default pool. -/
def envAB : RouterEnv :=
  { apps := [("A", ⟨"A", some connA, ["echo"]⟩), ("B", ⟨"B", some connB, []⟩)]
    conns := [(1, "B"), (2, "A")]
    triggerMappings := [("echo", ["A"])]
    pools := ["default"]
    appPoolMembership := [("A", ["default"]), ("B", ["default"])] }

/-- Router state holding the dispatched record recT1d. -/
def stT1 : RouterState :=
  { triggerRecords := [("T1", recT1d)]
    roundRobinCounters := []
    stats := ⟨1, 0, 0, 0, 0⟩
    defaultTTL := 30000
    maxConcurrentTriggers := 10000 }

/-- Environment for the no-handler example: only B is registered, with no
triggers at all. -/
def envNoHandler : RouterEnv :=
  { apps := [("B", ⟨"B", some connB, []⟩)]
    conns := [(1, "B")]
    triggerMappings := []
    pools := ["default"]
    appPoolMembership := [("B", ["default"])] }

/-- Empty router state with the default configuration values. -/
def stEmpty : RouterState :=
  { triggerRecords := []
    roundRobinCounters := []
    stats := ⟨0, 0, 0, 0, 0⟩
    defaultTTL := 30000
    maxConcurrentTriggers := 10000 }

/-- The ghost trigger request of the no-handler example. -/
def msgGhost : TriggerMsg := { id := "G1", trigger := some "ghost" }

/-- Registration of app A for the disconnection example. -/
def regDiscA : Registration :=
  { appId := "A", connection := some ⟨7, true⟩, pools := ["default"],
    triggers := ["t1"], meta := [], rehydrated := false }

/-- Registry state with A bound on connection 7, indexed under t1 and a
member of the default pool. -/
def stDiscA : RegState :=
  { apps := [("A", regDiscA)]
    conns := [(7, "A")]
    triggerMappings := [("t1", ["A"])]
    rehydrationCache := []
    poolsMem := [("default", ⟨false, defaultPoolPolicies⟩)]
    appPoolMembership := [("A", ["default"])]
    poolMembership := [("default", ["A"])]
    persistedApps := [("A", ⟨["default"], ["t1"], []⟩)]
    persistedPools := [] }

/-- An environment without a security module. -/
def plainRegEnv : RegEnv := ⟨false, fun _ _ _ => true⟩

/-- Fresh registry state for the rehydration example: only the default
pool with default policies exists; no app is known. -/
def stFresh : RegState :=
  { apps := []
    conns := []
    triggerMappings := []
    rehydrationCache := []
    poolsMem := [("p1", ⟨false, defaultPoolPolicies⟩)]
    appPoolMembership := []
    poolMembership := [("p1", [])]
    persistedApps := []
    persistedPools := [] }

/-- The CAS demonstration block after writing hello at offset 0. -/
def casBlock1 : MemoryBlock :=
  { buffer := helloBytes ++ List.replicate 11 0, version := 2,
    permissions := defaultBlockPerms }

/-- The CAS demonstration result: success, previous bytes hello, block now
holding world with version 3. -/
def casRes : CasResult :=
  ⟨true, helloBytes,
   { buffer := worldBytes ++ List.replicate 11 0, version := 3,
     permissions := defaultBlockPerms }⟩

/-!
## Theorems
-/

/-- Helper: a successful MemoryBlock.write increments version by exactly
one. -/
theorem write_version {b b2 : MemoryBlock} {o : Nat} {d : List Nat}
    (h : b.write o d = .ok b2) : b2.version = b.version + 1 := by
  unfold MemoryBlock.write at h
  split at h
  · exact Except.noConfusion h
  · injection h with h2
    rw [← h2]

/-- Helper: a successful MemoryBlock.write leaves the buffer length
unchanged and rewrites only the targeted range. -/
theorem write_buffer {b b2 : MemoryBlock} {o : Nat} {d : List Nat}
    (h : b.write o d = .ok b2) :
    b2.buffer = b.buffer.take o ++ d ++ b.buffer.drop (o + d.length) := by
  unfold MemoryBlock.write at h
  split at h
  · exact Except.noConfusion h
  · injection h with h2
    rw [← h2]

/-- Claim C7: every successful write increments the version counter of the
block by exactly one, and a successful compare-and-swap performs exactly
one write, so a write followed by a successful CAS increments the version
by two in total. -/
theorem write_then_cas_version (b b1 : MemoryBlock) (o1 o2 : Nat)
    (d nv exp : List Nat) (r : CasResult)
    (hw : b.write o1 d = .ok b1)
    (hc : compareAndSwap b1 o2 exp nv = .ok r)
    (hs : r.success = true) :
    b1.version = b.version + 1 ∧ r.block.version = b.version + 2 := by
  have h1 := write_version hw
  refine ⟨h1, ?_⟩
  unfold compareAndSwap at hc
  cases hread : b1.read o2 (some exp.length) with
  | error e => rw [hread] at hc; exact Except.noConfusion hc
  | ok current =>
    rw [hread] at hc
    dsimp only at hc
    by_cases heq : current = exp
    · rw [if_pos heq] at hc
      cases hwrite : b1.write o2 nv with
      | error e => rw [hwrite] at hc; exact Except.noConfusion hc
      | ok b2 =>
        rw [hwrite] at hc
        injection hc with h2
        have h3 := write_version hwrite
        rw [← h2]
        show b2.version = b.version + 2
        rw [h3, h1]
    · rw [if_neg heq] at hc
      injection hc with h2
      rw [← h2] at hs
      exact absurd hs (by simp)

/-- Witness for C7: the CAS example of the specification, a block of size
16, hello written at offset 0, then a successful CAS from hello to world,
incrementing the version from 1 to 3. -/
theorem write_then_cas_version_witness :
    casBlock.write 0 helloBytes = .ok casBlock1 ∧
    compareAndSwap casBlock1 0 helloBytes worldBytes = .ok casRes ∧
    casRes.success = true ∧
    casBlock1.version = casBlock.version + 1 ∧
    casRes.block.version = casBlock.version + 2 :=
  have h1 : casBlock.write 0 helloBytes = .ok casBlock1 := by rfl
  have h2 : compareAndSwap casBlock1 0 helloBytes worldBytes = .ok casRes := by rfl
  have h3 : casRes.success = true := by rfl
  ⟨h1, h2, h3,
   (write_then_cas_version casBlock casBlock1 0 0 helloBytes worldBytes
     helloBytes casRes h1 h2 h3).1,
   (write_then_cas_version casBlock casBlock1 0 0 helloBytes worldBytes
     helloBytes casRes h1 h2 h3).2⟩

/-- Claim C6: the permission check of the memory block is computed but not
enforced.  On a block whose permission map lists neither the wildcard nor
any app, _checkAccess answers false for both operations, yet read returns
the bytes and write mutates the buffer and bumps the version, because
both callers discard the check result. -/
theorem memory_access_check_not_enforced :
    MemoryBlock.checkAccess deniedBlock "read" = false ∧
    MemoryBlock.checkAccess deniedBlock "write" = false ∧
    MemoryBlock.read deniedBlock 0 none = .ok [1, 2, 3, 4] ∧
    MemoryBlock.write deniedBlock 0 [9] =
      .ok { buffer := [9, 2, 3, 4], version := 2, permissions := ⟨[], [], []⟩ } :=
  ⟨rfl, rfl, rfl, rfl⟩

/-- Counterexample for C8: a write of zero bytes at offset = size succeeds
and still increments the version counter from 1 to 2, against the claim
that it increments nothing. -/
theorem zero_write_increments_version_cex :
    boundaryBlock.write 8 [] =
      .ok { buffer := List.replicate 8 0, version := 2,
            permissions := defaultBlockPerms } ∧
    boundaryBlock.version = 1 :=
  ⟨rfl, rfl⟩

/-- Claim C8 as amended: on a block of size s, a read at offset s with no
length returns empty bytes, a write of one or more bytes at offset s is
rejected with the out-of-bounds error, and a write of zero bytes leaves
the buffer unchanged but still increments the version counter by one. -/
theorem boundary_read_write_spec (b : MemoryBlock) (s : Nat)
    (hs : b.buffer.length = s) :
    b.read s none = .ok [] ∧
    (∀ d : List Nat, d ≠ [] → b.write s d = .error "Write beyond buffer bounds") ∧
    (∀ b2 : MemoryBlock, b.write s [] = .ok b2 →
      b2.buffer = b.buffer ∧ b2.version = b.version + 1) := by
  refine ⟨?_, ?_, ?_⟩
  · unfold MemoryBlock.read
    rw [hs]
    have hgt : ¬ ((s : Int) + ((s : Int) - (s : Int)) > (s : Int)) := by omega
    rw [if_neg hgt]
    have : jsSlice b.buffer (s : Int) ((s : Int) + ((s : Int) - (s : Int))) = [] := by
      have h0 : (s : Int) + ((s : Int) - (s : Int)) = (s : Int) := by ring
      rw [h0]
      unfold jsSlice jsSliceNorm
      rw [hs]
      simp
    rw [this]
  · intro d hd
    unfold MemoryBlock.write
    have hgt : s + d.length > b.buffer.length := by
      rw [hs]
      have : 0 < d.length := List.length_pos.mpr hd
      omega
    rw [if_pos hgt]
  · intro b2 h
    unfold MemoryBlock.write at h
    have hgt : ¬ (s + List.length ([] : List Nat) > b.buffer.length) := by
      simp [hs]
    rw [if_neg hgt] at h
    injection h with h2
    rw [← h2]
    constructor
    · show b.buffer.take s ++ [] ++ b.buffer.drop (s + List.length ([] : List Nat)) = b.buffer
      simp [List.take_append_drop]
    · rfl

/-- Witness for C8 as amended, at the size-8 block: the read at offset 8
returns empty, a one-byte write at offset 8 is rejected. -/
theorem boundary_read_write_spec_witness :
    boundaryBlock.buffer.length = 8 ∧
    boundaryBlock.read 8 none = .ok [] ∧
    boundaryBlock.write 8 [1] = .error "Write beyond buffer bounds" :=
  have h : boundaryBlock.buffer.length = 8 := by rfl
  ⟨h, (boundary_read_write_spec boundaryBlock 8 h).1,
   (boundary_read_write_spec boundaryBlock 8 h).2.1 [1] (by decide)⟩

/-- Claim C1: evaluation of _routeResponse at a record whose original
trigger message carried destination A.  The response is written to
connection 2, the connection of the destination app A (the handler), and
not to connection 1, the connection of the origin B stored on the
record. -/
theorem routeResponse_prefers_destination :
    routeResponse envAB recT1d = .ok 2 ∧
    recT1d.originConnection = some connB ∧
    connB.id = 1 ∧
    recT1d.originalMessage.destination = some "A" :=
  ⟨rfl, rfl, rfl, rfl⟩

/-- Claim C2: evaluation of _handleAppDisconnection on a state holding an
in-flight record whose message origin is B and whose dispatched_to is A.
Disconnecting A terminates nothing and disconnecting B terminates
nothing: the filter reads record.originAppId and record.origin, which the
TriggerRecord constructor never assigns, so no record ever matches.  The
termination helper itself would send a TIMEOUT error, not a
ROUTING_ERROR. -/
theorem disconnection_terminates_no_record :
    handleAppDisconnection stT1 "A" = (stT1, []) ∧
    handleAppDisconnection stT1 "B" = (stT1, []) ∧
    recT1d.originalMessage.origin = some "B" ∧
    recT1d.dispatchedTo = some "A" ∧
    recT1d.originAppId = none ∧
    recT1d.origin = none ∧
    stT1.triggerRecords.get? "T1" = some recT1d ∧
    (createTimeoutError (some "T1")).errorCode = some "TIMEOUT" :=
  ⟨rfl, rfl, rfl, rfl, rfl, rfl, rfl, rfl⟩

/-- Counterexample for C3: a message ttl of 60000 with default ttl 30000
yields a stored record ttl of 60000, not the minimum of the message ttl,
any configured maximum (45000 here) and the default. -/
theorem recordTtl_not_clamped_cex :
    recordTtl (some 60000) 30000 = 60000 ∧
    recordTtl (some 60000) 30000 ≠ Nat.min (Nat.min 60000 45000) 30000 := by
  exact ⟨rfl, by decide⟩

/-- Counterexample for C5: a trigger with no registered handler is
answered with error_code TRIGGER_ROUTING_ERROR, not NOT_FOUND. -/
theorem noHandler_error_code_cex :
    (handleTriggerRequest envNoHandler stEmpty msgGhost connB 0).2 =
      [(1, OutMsg.err (createError (some "G1")
        "No handlers found for trigger: ghost in pool: default"
        "TRIGGER_ROUTING_ERROR"))] ∧
    (createError (some "G1")
      "No handlers found for trigger: ghost in pool: default"
      "TRIGGER_ROUTING_ERROR").errorCode ≠ some "NOT_FOUND" :=
  ⟨rfl, by decide⟩

/-- Claim C10: every createPool call with the encrypted flag set, or with
the pool type encrypted (which forces the flag), raises an error before
the persistence write and before the in-memory map insertions, so no
encrypted pool is ever created and the pool state is unchanged (an error
result carries no state). -/
theorem createPool_encrypted_always_errors (st : PoolMgrState)
    (name ptype : String) (encrypted : Bool) (props : CreatePoolProps)
    (h : encrypted = true ∨ ptype = "encrypted") :
    ∃ e, createPool st name ptype encrypted props = .error e := by
  unfold createPool
  by_cases h1 : name = ""
  · rw [if_pos h1]; exact ⟨_, rfl⟩
  · rw [if_neg h1]
    by_cases h2 : st.pools.contains name = true
    · rw [if_pos h2]; exact ⟨_, rfl⟩
    · rw [if_neg h2]
      by_cases h3 : validatePoolType ptype = true
      · rw [if_neg (by simp [h3])]
        have henc : (if ptype = "encrypted" && !encrypted then true else encrypted)
            = true := by
          cases encrypted with
          | true => split <;> rfl
          | false =>
            rcases h with he | ht
            · exact absurd he (by decide)
            · simp [ht]
        dsimp only
        split
        · exact ⟨_, rfl⟩
        · rw [henc]
          exact ⟨_, rfl⟩
      · rw [if_pos (by simp [h3])]; exact ⟨_, rfl⟩

/-- Witness for C10: creating a pool of type encrypted on the empty
manager errors out. -/
theorem createPool_encrypted_always_errors_witness :
    ∃ e, createPool emptyPoolMgr "p1" "encrypted" false {} = .error e :=
  createPool_encrypted_always_errors emptyPoolMgr "p1" "encrypted" false {}
    (Or.inr rfl)

/-- Claim C3 as amended: the ttl stored on a created record equals the
message ttl whenever that is nonzero, and the default ttl otherwise; no
minimum against a configured maximum or the default is taken (hence a ttl
above any bound is used as supplied, and a ttl of 0 falls back to the
default instead of timing out immediately).  The second conjunct ties
recordTtl to createTriggerRecord under the metadata handleTriggerRequest
builds. -/
theorem recordTtl_spec (mttl : Option Nat) (dflt : Nat) (hd : dflt ≠ 0) :
    recordTtl mttl dflt = (match mttl with
      | some (Nat.succ k) => Nat.succ k
      | _ => dflt) ∧
    ∀ (st : RouterState) (id origin : String) (dest : Option String)
      (meta : RecordOptions) (msg : TriggerMsg) (oc : Option Conn) (now : Nat)
      (r : TriggerRecordR) (st2 : RouterState),
      st.defaultTTL = dflt → meta.ttl = some (jsOrNat mttl dflt) →
      createTriggerRecord st id origin dest meta msg oc now = .ok (r, st2) →
      r.ttl = recordTtl mttl dflt := by
  constructor
  · cases mttl with
    | none =>
      cases dflt with
      | zero => exact absurd rfl hd
      | succ k => rfl
    | some n =>
      cases n with
      | zero =>
        cases dflt with
        | zero => exact absurd rfl hd
        | succ k => rfl
      | succ k => rfl
  · intro st id origin dest meta msg oc now r st2 hdef hmeta hcreate
    unfold createTriggerRecord at hcreate
    split at hcreate
    · exact Except.noConfusion hcreate
    · split at hcreate
      · exact Except.noConfusion hcreate
      · injection hcreate with h2
        rw [Prod.mk.injEq] at h2
        obtain ⟨hr, -⟩ := h2
        rw [← hr]
        show jsOrNat (some (jsOrNat meta.ttl st.defaultTTL)) 30000
          = recordTtl mttl dflt
        rw [hmeta, hdef]
        rfl

/-- Witness for C3 as amended: a record ttl of 60000 with a default of
30000 stays 60000. -/
theorem recordTtl_spec_witness : recordTtl (some 60000) 30000 = 60000 :=
  (recordTtl_spec (some 60000) 30000 (by decide)).1

/-- Claim C5 as amended: when the candidate handler set for a trigger is
empty (no registered, pool-member, active handler, and no explicit
destination), the caller receives an error with error_code
TRIGGER_ROUTING_ERROR reporting the missing handler, the failed-trigger
counter is incremented, and the in-flight table is unchanged, so no
record remains. -/
theorem noHandler_trigger_routing_error
    (env : RouterEnv) (st : RouterState) (msg : TriggerMsg) (conn : Conn)
    (now : Nat) (a : String) (app : RApp) (t : String)
    (hconn : env.conns.get? conn.id = some a)
    (happ : env.apps.get? a = some app)
    (hcap : st.triggerRecords.size < st.maxConcurrentTriggers)
    (hdest : msg.destination = none)
    (htrig : msg.trigger = some t)
    (ht : t ≠ "")
    (hpool : env.pools.contains (jsOrStr msg.pool "default") = true)
    (hmem : env.validatePoolMembership app.appId (jsOrStr msg.pool "default") = true)
    (hnoh : (env.getTriggersHandlers t).filter
      (fun h => env.validatePoolMembership h.appId (jsOrStr msg.pool "default")) = []) :
    handleTriggerRequest env st msg conn now =
      ({ st with stats := { st.stats with
          totalTriggers := st.stats.totalTriggers + 1
          failedTriggers := st.stats.failedTriggers + 1 } },
       [(conn.id, OutMsg.err (createError (some msg.id)
          ("No handlers found for trigger: " ++ t ++ " in pool: " ++
           jsOrStr msg.pool "default")
          "TRIGGER_ROUTING_ERROR"))]) := by
  have hsize : ¬ (st.triggerRecords.size ≥ st.maxConcurrentTriggers) :=
    Nat.not_le.mpr hcap
  unfold handleTriggerRequest
  dsimp only []
  rw [if_neg hsize]
  unfold RouterEnv.getAppByConnection
  rw [hconn]
  dsimp only []
  rw [happ]
  dsimp only []
  rw [if_neg (by rw [hpool]; simp), if_neg (by rw [hmem]; simp)]
  unfold routeTrigger
  dsimp only []
  rw [htrig]
  have htt : strTruthy (some t) = true := by simp [strTruthy, ht]
  rw [if_neg (by rw [htt]; simp)]
  rw [hdest]
  have hft : strTruthy (none : Option String) = false := rfl
  rw [if_neg (by rw [hft]; simp)]
  dsimp only [jsShow]
  rw [if_pos hnoh]

/-!
### Association-list lemmas
-/

theorem alist_get_set_self {κ α : Type} [DecidableEq κ] (m : AList κ α)
    (k : κ) (v : α) : AList.get? (AList.set m k v) k = some v := by
  induction m with
  | nil => simp [AList.set, AList.get?]
  | cons kv rest ih =>
    obtain ⟨k2, v2⟩ := kv
    by_cases h : k2 = k
    · simp [AList.set, AList.get?, h]
    · simp [AList.set, AList.get?, h, ih]

theorem alist_get_set_ne {κ α : Type} [DecidableEq κ] (m : AList κ α)
    (k k' : κ) (v : α) (h : k' ≠ k) :
    AList.get? (AList.set m k v) k' = AList.get? m k' := by
  have hkk : ¬ (k = k') := fun hh => h hh.symm
  induction m with
  | nil =>
    show (if k = k' then some v else AList.get? ([] : AList κ α) k') = none
    rw [if_neg hkk]
    rfl
  | cons kv rest ih =>
    obtain ⟨k2, v2⟩ := kv
    by_cases h2 : k2 = k
    · show AList.get? (if k2 = k then (k, v) :: rest else (k2, v2) :: AList.set rest k v) k'
          = AList.get? ((k2, v2) :: rest) k'
      rw [if_pos h2]
      show (if k = k' then some v else AList.get? rest k')
          = if k2 = k' then some v2 else AList.get? rest k'
      rw [if_neg hkk, if_neg (fun hh : k2 = k' => hkk (h2.symm.trans hh))]
    · show AList.get? (if k2 = k then (k, v) :: rest else (k2, v2) :: AList.set rest k v) k'
          = AList.get? ((k2, v2) :: rest) k'
      rw [if_neg h2]
      show (if k2 = k' then some v2 else AList.get? (AList.set rest k v) k')
          = if k2 = k' then some v2 else AList.get? rest k'
      rw [ih]

theorem alist_get_del_ne {κ α : Type} [DecidableEq κ] (m : AList κ α)
    (k k' : κ) (h : k' ≠ k) :
    AList.get? (AList.del m k) k' = AList.get? m k' := by
  induction m with
  | nil => rfl
  | cons kv rest ih =>
    obtain ⟨k2, v2⟩ := kv
    by_cases h2 : k2 = k
    · show AList.get? (if k2 = k then rest else (k2, v2) :: AList.del rest k) k'
          = AList.get? ((k2, v2) :: rest) k'
      rw [if_pos h2]
      show AList.get? rest k' = if k2 = k' then some v2 else AList.get? rest k'
      rw [if_neg (fun hh : k2 = k' => h (hh ▸ h2 ▸ rfl))]
    · show AList.get? (if k2 = k then rest else (k2, v2) :: AList.del rest k) k'
          = AList.get? ((k2, v2) :: rest) k'
      rw [if_neg h2]
      show (if k2 = k' then some v2 else AList.get? (AList.del rest k) k')
          = if k2 = k' then some v2 else AList.get? rest k'
      rw [ih]

theorem alist_get_none_of_not_mem {κ α : Type} [DecidableEq κ] (m : AList κ α)
    (k : κ) (h : k ∉ m.map Prod.fst) : AList.get? m k = none := by
  induction m with
  | nil => rfl
  | cons kv rest ih =>
    obtain ⟨k2, v2⟩ := kv
    simp only [List.map_cons, List.mem_cons] at h
    push_neg at h
    show (if k2 = k then some v2 else AList.get? rest k) = none
    rw [if_neg (fun hh : k2 = k => h.1 hh.symm), ih h.2]

theorem alist_keys_del_sublist {κ α : Type} [DecidableEq κ] (m : AList κ α)
    (k : κ) : ((AList.del m k).map Prod.fst).Sublist (m.map Prod.fst) := by
  induction m with
  | nil => simp [AList.del]
  | cons kv rest ih =>
    obtain ⟨k2, v2⟩ := kv
    by_cases h : k2 = k
    · simp only [AList.del, if_pos h, List.map_cons]
      exact (List.sublist_cons_self _ _)
    · simp only [AList.del, if_neg h, List.map_cons]
      exact ih.cons₂ k2

theorem alist_get_del_self {κ α : Type} [DecidableEq κ] (m : AList κ α)
    (k : κ) (hnd : (m.map Prod.fst).Nodup) :
    AList.get? (AList.del m k) k = none := by
  induction m with
  | nil => rfl
  | cons kv rest ih =>
    obtain ⟨k2, v2⟩ := kv
    simp only [List.map_cons, List.nodup_cons] at hnd
    by_cases h : k2 = k
    · subst h
      simp only [AList.del, if_pos rfl]
      exact alist_get_none_of_not_mem rest k2 hnd.1
    · simp only [AList.del, if_neg h]
      simp [AList.get?, h, ih hnd.2]

theorem alist_mem_keys_set {κ α : Type} [DecidableEq κ] (m : AList κ α)
    (k x : κ) (v : α) (h : x ∈ (AList.set m k v).map Prod.fst) :
    x ∈ m.map Prod.fst ∨ x = k := by
  induction m with
  | nil =>
    simp [AList.set] at h
    exact Or.inr h
  | cons kv rest ih =>
    obtain ⟨k2, v2⟩ := kv
    by_cases h2 : k2 = k
    · simp only [AList.set, if_pos h2, List.map_cons, List.mem_cons] at h
      rcases h with h | h
      · exact Or.inr h
      · exact Or.inl (List.mem_cons_of_mem _ h)
    · simp only [AList.set, if_neg h2, List.map_cons, List.mem_cons] at h
      rcases h with h | h
      · exact Or.inl (by simp [h])
      · rcases ih h with h3 | h3
        · exact Or.inl (List.mem_cons_of_mem _ h3)
        · exact Or.inr h3

theorem alist_keys_nodup_set {κ α : Type} [DecidableEq κ] (m : AList κ α)
    (k : κ) (v : α) (hnd : (m.map Prod.fst).Nodup) :
    ((AList.set m k v).map Prod.fst).Nodup := by
  induction m with
  | nil => simp [AList.set]
  | cons kv rest ih =>
    obtain ⟨k2, v2⟩ := kv
    simp only [List.map_cons, List.nodup_cons] at hnd
    by_cases h2 : k2 = k
    · subst h2
      have hset : AList.set ((k2, v2) :: rest) k2 v = (k2, v) :: rest := by
        show (if k2 = k2 then (k2, v) :: rest else (k2, v2) :: AList.set rest k2 v)
            = (k2, v) :: rest
        rw [if_pos rfl]
      rw [hset]
      simp only [List.map_cons, List.nodup_cons]
      exact hnd
    · simp only [AList.set, if_neg h2, List.map_cons, List.nodup_cons]
      refine ⟨fun hmem => ?_, ih hnd.2⟩
      rcases alist_mem_keys_set rest k k2 v hmem with h3 | h3
      · exact hnd.1 h3
      · exact h2 h3

theorem alist_keys_nodup_del {κ α : Type} [DecidableEq κ] (m : AList κ α)
    (k : κ) (hnd : (m.map Prod.fst).Nodup) :
    ((AList.del m k).map Prod.fst).Nodup :=
  hnd.sublist (alist_keys_del_sublist m k)

/-!
### Trigger-index removal lemmas for the disconnection path
-/

/-- removeTriggerMapping touches only the triggerMappings field. -/
theorem removeTriggerMapping_frame (st : RegState) (t a : String) :
    (removeTriggerMapping st t a).apps = st.apps ∧
    (removeTriggerMapping st t a).conns = st.conns ∧
    (removeTriggerMapping st t a).rehydrationCache = st.rehydrationCache ∧
    (removeTriggerMapping st t a).poolsMem = st.poolsMem ∧
    (removeTriggerMapping st t a).appPoolMembership = st.appPoolMembership ∧
    (removeTriggerMapping st t a).poolMembership = st.poolMembership ∧
    (removeTriggerMapping st t a).persistedApps = st.persistedApps ∧
    (removeTriggerMapping st t a).persistedPools = st.persistedPools := by
  unfold removeTriggerMapping
  split
  · exact ⟨rfl, rfl, rfl, rfl, rfl, rfl, rfl, rfl⟩
  · dsimp only []
    split
    · exact ⟨rfl, rfl, rfl, rfl, rfl, rfl, rfl, rfl⟩
    · exact ⟨rfl, rfl, rfl, rfl, rfl, rfl, rfl, rfl⟩

/-- Removing a under trigger t clears a from the index at t when a was
present at most once. -/
theorem remove_self_not_mem (st : RegState) (t a : String)
    (hnd : (st.triggerMappings.map Prod.fst).Nodup)
    (hcount : (lookupTrig st t).count a ≤ 1) :
    a ∉ lookupTrig (removeTriggerMapping st t a) t := by
  unfold removeTriggerMapping
  cases hget : AList.get? st.triggerMappings t with
  | none =>
    dsimp only []
    unfold lookupTrig
    rw [hget]
    simp
  | some l =>
    unfold lookupTrig at hcount
    rw [hget] at hcount
    simp only [Option.getD_some] at hcount
    dsimp only []
    by_cases hl : l.erase a = []
    · rw [if_pos hl]
      unfold lookupTrig
      dsimp only []
      rw [alist_get_del_self st.triggerMappings t hnd]
      simp
    · rw [if_neg hl]
      unfold lookupTrig
      dsimp only []
      rw [alist_get_set_self]
      simp only [Option.getD_some]
      intro hmem
      have h2 : (l.erase a).count a = l.count a - 1 := List.count_erase_self a l
      have h3 : (l.erase a).count a ≥ 1 := List.one_le_count_iff.mpr hmem
      omega

/-- Removing a under another trigger name leaves the index at t intact. -/
theorem remove_other_eq (st : RegState) (t t' a : String) (h : t ≠ t') :
    lookupTrig (removeTriggerMapping st t' a) t = lookupTrig st t := by
  unfold removeTriggerMapping
  cases hget : AList.get? st.triggerMappings t' with
  | none => rfl
  | some l =>
    dsimp only []
    by_cases hl : l.erase a = []
    · rw [if_pos hl]
      unfold lookupTrig
      dsimp only []
      rw [alist_get_del_ne _ _ _ h]
    · rw [if_neg hl]
      unfold lookupTrig
      dsimp only []
      rw [alist_get_set_ne _ _ _ _ h]

/-- Removal never increases the number of occurrences of a at any key
(on a well-formed index, whose keys are distinct). -/
theorem remove_count_le (st : RegState) (t t' a : String)
    (hnd : (st.triggerMappings.map Prod.fst).Nodup) :
    (lookupTrig (removeTriggerMapping st t' a) t).count a ≤
      (lookupTrig st t).count a := by
  by_cases h : t = t'
  · subst h
    unfold removeTriggerMapping
    cases hget : AList.get? st.triggerMappings t with
    | none => exact Nat.le_refl _
    | some l =>
      dsimp only []
      by_cases hl : l.erase a = []
      · rw [if_pos hl]
        unfold lookupTrig
        dsimp only []
        rw [alist_get_del_self st.triggerMappings t hnd]
        simp
      · rw [if_neg hl]
        unfold lookupTrig
        dsimp only []
        rw [alist_get_set_self, hget]
        simp only [Option.getD_some]
        exact (List.erase_sublist a l).count_le a
  · rw [remove_other_eq st t t' a h]

/-- The keys of the trigger index stay distinct across a removal. -/
theorem remove_keys_nodup (st : RegState) (t a : String)
    (hnd : (st.triggerMappings.map Prod.fst).Nodup) :
    ((removeTriggerMapping st t a).triggerMappings.map Prod.fst).Nodup := by
  unfold removeTriggerMapping
  split
  · exact hnd
  · dsimp only []
    split
    · exact alist_keys_nodup_del _ _ hnd
    · exact alist_keys_nodup_set _ _ _ hnd

/-- An app absent from the index at t stays absent across any removal. -/
theorem remove_not_mem_preserve (st : RegState) (t t' a : String)
    (hnd : (st.triggerMappings.map Prod.fst).Nodup)
    (h : a ∉ lookupTrig st t) :
    a ∉ lookupTrig (removeTriggerMapping st t' a) t := by
  intro hmem
  have hle := remove_count_le st t t' a hnd
  have h0 : (lookupTrig st t).count a = 0 := List.count_eq_zero.mpr h
  have h1 : 1 ≤ (lookupTrig (removeTriggerMapping st t' a) t).count a :=
    List.one_le_count_iff.mpr hmem
  omega

/-- Absence from the index survives a whole removal fold. -/
theorem foldRemove_not_mem_preserve (a : String) (T : List String) :
    ∀ (st : RegState) (t : String),
      (st.triggerMappings.map Prod.fst).Nodup →
      a ∉ lookupTrig st t →
      a ∉ lookupTrig (T.foldl (fun s u => removeTriggerMapping s u a) st) t := by
  induction T with
  | nil => intro st t _ h; exact h
  | cons u rest ih =>
    intro st t hnd h
    simp only [List.foldl_cons]
    exact ih (removeTriggerMapping st u a) t (remove_keys_nodup st u a hnd)
      (remove_not_mem_preserve st t u a hnd h)

/-- After removing an app from the index under every name of a list, the
app is absent from the index at each of those names, provided the index
was well-formed (distinct keys, each name listing the app at most
once). -/
theorem foldRemove_not_mem (a : String) (T : List String) :
    ∀ st : RegState,
      (st.triggerMappings.map Prod.fst).Nodup →
      (∀ t2, (lookupTrig st t2).count a ≤ 1) →
      ∀ t ∈ T, a ∉ lookupTrig (T.foldl (fun s u => removeTriggerMapping s u a) st) t := by
  induction T with
  | nil => intro st _ _ t ht; cases ht
  | cons u rest ih =>
    intro st hnd hcount t ht
    simp only [List.foldl_cons]
    have hnd2 := remove_keys_nodup st u a hnd
    have hcount2 : ∀ t2, (lookupTrig (removeTriggerMapping st u a) t2).count a ≤ 1 :=
      fun t2 => le_trans (remove_count_le st t2 u a hnd) (hcount t2)
    rcases List.mem_cons.mp ht with h | h
    · subst h
      exact foldRemove_not_mem_preserve a rest (removeTriggerMapping st t a) t hnd2
        (remove_self_not_mem st t a hnd (hcount t))
    · exact ih (removeTriggerMapping st u a) hnd2 hcount2 t h

/-- The removal fold touches only the triggerMappings field. -/
theorem foldRemove_frame (a : String) (T : List String) :
    ∀ st : RegState,
      (T.foldl (fun s u => removeTriggerMapping s u a) st).apps = st.apps ∧
      (T.foldl (fun s u => removeTriggerMapping s u a) st).conns = st.conns ∧
      (T.foldl (fun s u => removeTriggerMapping s u a) st).rehydrationCache
        = st.rehydrationCache ∧
      (T.foldl (fun s u => removeTriggerMapping s u a) st).poolsMem = st.poolsMem ∧
      (T.foldl (fun s u => removeTriggerMapping s u a) st).appPoolMembership
        = st.appPoolMembership ∧
      (T.foldl (fun s u => removeTriggerMapping s u a) st).poolMembership
        = st.poolMembership ∧
      (T.foldl (fun s u => removeTriggerMapping s u a) st).persistedApps
        = st.persistedApps ∧
      (T.foldl (fun s u => removeTriggerMapping s u a) st).persistedPools
        = st.persistedPools := by
  induction T with
  | nil => intro st; exact ⟨rfl, rfl, rfl, rfl, rfl, rfl, rfl, rfl⟩
  | cons u rest ih =>
    intro st
    simp only [List.foldl_cons]
    have h1 := removeTriggerMapping_frame st u a
    have h2 := ih (removeTriggerMapping st u a)
    exact ⟨h2.1.trans h1.1, h2.2.1.trans h1.2.1, h2.2.2.1.trans h1.2.2.1,
      h2.2.2.2.1.trans h1.2.2.2.1, h2.2.2.2.2.1.trans h1.2.2.2.2.1,
      h2.2.2.2.2.2.1.trans h1.2.2.2.2.2.1, h2.2.2.2.2.2.2.1.trans h1.2.2.2.2.2.2.1,
      h2.2.2.2.2.2.2.2.trans h1.2.2.2.2.2.2.2⟩

/-- Counterexample for C9: after app A (bound on connection 7, member of
the default pool) disconnects, A is offline (gone from the live map) yet
both pool-membership indexes still list it: pool memberships are not
removed while the app is offline. -/
theorem disconnect_keeps_pool_membership_cex :
    (handleDisconnection stDiscA ⟨7, true⟩).poolMembership.get? "default"
      = some ["A"] ∧
    (handleDisconnection stDiscA ⟨7, true⟩).appPoolMembership.get? "A"
      = some ["default"] ∧
    (handleDisconnection stDiscA ⟨7, true⟩).apps.get? "A" = none :=
  ⟨rfl, rfl, rfl⟩

/-- Claim C9 as amended: when a bound connection disconnects, the registry
retains the registration (pools, triggers, metadata) in the rehydration
cache and removes the trigger-index entries of the app, but the pool
memberships of the app are not removed: the disconnection path never
calls the pool manager, so both membership maps stay untouched while the
app is offline. -/
theorem handleDisconnection_spec (st : RegState) (conn : Conn)
    (a : String) (reg : Registration)
    (hconn : st.conns.get? conn.id = some a)
    (happ : st.apps.get? a = some reg)
    (hndApps : (st.apps.map Prod.fst).Nodup)
    (hndTrig : (st.triggerMappings.map Prod.fst).Nodup)
    (hcount : ∀ t, (lookupTrig st t).count a ≤ 1) :
    (handleDisconnection st conn).rehydrationCache.get? a =
      some ⟨reg.pools, reg.triggers, reg.meta⟩ ∧
    (handleDisconnection st conn).apps.get? a = none ∧
    (∀ t ∈ reg.triggers, a ∉ lookupTrig (handleDisconnection st conn) t) ∧
    (handleDisconnection st conn).appPoolMembership = st.appPoolMembership ∧
    (handleDisconnection st conn).poolMembership = st.poolMembership := by
  have hframe := foldRemove_frame a reg.triggers st
  unfold handleDisconnection
  rw [hconn]
  dsimp only []
  rw [happ]
  dsimp only []
  refine ⟨?_, ?_, ?_, ?_, ?_⟩
  · show (AList.set (reg.triggers.foldl (fun s t => removeTriggerMapping s t a)
        st).rehydrationCache a ⟨reg.pools, reg.triggers, reg.meta⟩).get? a
      = some ⟨reg.pools, reg.triggers, reg.meta⟩
    exact alist_get_set_self _ _ _
  · show (AList.del (reg.triggers.foldl (fun s t => removeTriggerMapping s t a)
        st).apps a).get? a = none
    rw [hframe.1]
    exact alist_get_del_self _ _ hndApps
  · intro t ht
    show a ∉ lookupTrig (reg.triggers.foldl (fun s t => removeTriggerMapping s t a) st) t
    exact foldRemove_not_mem a reg.triggers st hndTrig hcount t ht
  · exact hframe.2.2.2.2.1
  · exact hframe.2.2.2.2.2.1

/-- Witness for C9 as amended, at the concrete disconnection state. -/
theorem handleDisconnection_spec_witness :
    stDiscA.conns.get? 7 = some "A" ∧
    stDiscA.apps.get? "A" = some regDiscA ∧
    (handleDisconnection stDiscA ⟨7, true⟩).rehydrationCache.get? "A" =
      some ⟨["default"], ["t1"], []⟩ ∧
    (handleDisconnection stDiscA ⟨7, true⟩).poolMembership = stDiscA.poolMembership := by
  have hc : ∀ t, (lookupTrig stDiscA t).count "A" ≤ 1 := by
    intro t
    show ((AList.get? [("t1", ["A"])] t).getD []).count "A" ≤ 1
    by_cases h : "t1" = t
    · show ((if "t1" = t then some ["A"] else AList.get? [] t).getD []).count "A" ≤ 1
      rw [if_pos h]
      decide
    · show ((if "t1" = t then some ["A"] else AList.get? [] t).getD []).count "A" ≤ 1
      rw [if_neg h]
      show ((none : Option (List String)).getD []).count "A" ≤ 1
      decide
  have h := handleDisconnection_spec stDiscA ⟨7, true⟩ "A" regDiscA rfl rfl
    (by decide) (by decide) hc
  exact ⟨rfl, rfl, h.1, h.2.2.2.2⟩

/-- Witness for C5 as amended: the no-handler example, instantiated. -/
theorem noHandler_trigger_routing_error_witness :
    envNoHandler.conns.get? connB.id = some "B" ∧
    envNoHandler.apps.get? "B" = some ⟨"B", some connB, []⟩ ∧
    handleTriggerRequest envNoHandler stEmpty msgGhost connB 0 =
      ({ stEmpty with stats := ⟨1, 0, 1, 0, 0⟩ },
       [(1, OutMsg.err (createError (some "G1")
          "No handlers found for trigger: ghost in pool: default"
          "TRIGGER_ROUTING_ERROR"))]) :=
  ⟨rfl, rfl,
   noHandler_trigger_routing_error envNoHandler stEmpty msgGhost connB 0 "B"
     ⟨"B", some connB, []⟩ "ghost" rfl rfl (by decide) rfl rfl (by decide)
     rfl rfl rfl⟩

/-!
### Trigger-index insertion lemmas for registration and rehydration
-/

/-- Equal trigger maps give equal index lookups. -/
theorem lookupTrig_congr (st1 st2 : RegState) (t : String)
    (h : st1.triggerMappings = st2.triggerMappings) :
    lookupTrig st1 t = lookupTrig st2 t := by
  unfold lookupTrig
  rw [h]

/-- addTriggerMapping touches only the triggerMappings field. -/
theorem addTriggerMapping_frame (st : RegState) (t a : String) :
    (addTriggerMapping st t a).apps = st.apps ∧
    (addTriggerMapping st t a).conns = st.conns ∧
    (addTriggerMapping st t a).rehydrationCache = st.rehydrationCache ∧
    (addTriggerMapping st t a).poolsMem = st.poolsMem ∧
    (addTriggerMapping st t a).appPoolMembership = st.appPoolMembership ∧
    (addTriggerMapping st t a).poolMembership = st.poolMembership ∧
    (addTriggerMapping st t a).persistedApps = st.persistedApps ∧
    (addTriggerMapping st t a).persistedPools = st.persistedPools :=
  ⟨rfl, rfl, rfl, rfl, rfl, rfl, rfl, rfl⟩

/-- Inserting a under t places a in the index at t. -/
theorem add_self_mem (st : RegState) (t a : String) :
    a ∈ lookupTrig (addTriggerMapping st t a) t := by
  unfold addTriggerMapping lookupTrig
  dsimp only []
  rw [alist_get_set_self]
  simp only [Option.getD_some]
  by_cases h : ((AList.get? st.triggerMappings t).getD []).contains a
  · rw [if_pos h]
    exact List.mem_of_elem_eq_true h
  · rw [if_neg h]
    exact List.mem_append_right _ (List.mem_singleton.mpr rfl)

/-- Membership of a in the index survives inserting a under any name. -/
theorem add_mem_preserve (st : RegState) (t t' a : String)
    (h : a ∈ lookupTrig st t) : a ∈ lookupTrig (addTriggerMapping st t' a) t := by
  by_cases he : t = t'
  · subst he
    exact add_self_mem st t a
  · unfold addTriggerMapping lookupTrig
    dsimp only []
    rw [alist_get_set_ne _ _ _ _ he]
    exact h

/-- Membership of a survives a whole insertion fold. -/
theorem foldAdd_mem_preserve (a : String) (T : List String) :
    ∀ (st : RegState) (t : String), a ∈ lookupTrig st t →
      a ∈ lookupTrig (T.foldl (fun s u => addTriggerMapping s u a) st) t := by
  induction T with
  | nil => intro st t h; exact h
  | cons u rest ih =>
    intro st t h
    simp only [List.foldl_cons]
    exact ih (addTriggerMapping st u a) t (add_mem_preserve st t u a h)

/-- After inserting a under every name of a list, a is in the index at
each of those names. -/
theorem foldAdd_mem (a : String) (T : List String) :
    ∀ (st : RegState) (t : String), t ∈ T →
      a ∈ lookupTrig (T.foldl (fun s u => addTriggerMapping s u a) st) t := by
  induction T with
  | nil => intro st t ht; cases ht
  | cons u rest ih =>
    intro st t ht
    simp only [List.foldl_cons]
    rcases List.mem_cons.mp ht with h | h
    · subst h
      exact foldAdd_mem_preserve a rest (addTriggerMapping st t a) t
        (add_self_mem st t a)
    · exact ih (addTriggerMapping st u a) t h

/-- The insertion fold touches only the triggerMappings field. -/
theorem foldAdd_frame (a : String) (T : List String) :
    ∀ st : RegState,
      (T.foldl (fun s u => addTriggerMapping s u a) st).apps = st.apps ∧
      (T.foldl (fun s u => addTriggerMapping s u a) st).conns = st.conns ∧
      (T.foldl (fun s u => addTriggerMapping s u a) st).rehydrationCache
        = st.rehydrationCache ∧
      (T.foldl (fun s u => addTriggerMapping s u a) st).poolsMem = st.poolsMem ∧
      (T.foldl (fun s u => addTriggerMapping s u a) st).appPoolMembership
        = st.appPoolMembership ∧
      (T.foldl (fun s u => addTriggerMapping s u a) st).poolMembership
        = st.poolMembership ∧
      (T.foldl (fun s u => addTriggerMapping s u a) st).persistedApps
        = st.persistedApps ∧
      (T.foldl (fun s u => addTriggerMapping s u a) st).persistedPools
        = st.persistedPools := by
  induction T with
  | nil => intro st; exact ⟨rfl, rfl, rfl, rfl, rfl, rfl, rfl, rfl⟩
  | cons u rest ih =>
    intro st
    simp only [List.foldl_cons]
    have h1 := addTriggerMapping_frame st u a
    have h2 := ih (addTriggerMapping st u a)
    exact ⟨h2.1.trans h1.1, h2.2.1.trans h1.2.1, h2.2.2.1.trans h1.2.2.1,
      h2.2.2.2.1.trans h1.2.2.2.1, h2.2.2.2.2.1.trans h1.2.2.2.2.1,
      h2.2.2.2.2.2.1.trans h1.2.2.2.2.2.1, h2.2.2.2.2.2.2.1.trans h1.2.2.2.2.2.2.1,
      h2.2.2.2.2.2.2.2.trans h1.2.2.2.2.2.2.2⟩

/-!
### Pool-join lemmas for registration and rehydration
-/

/-- Equal pool maps give equal joinability. -/
theorem poolJoinable_congr (st1 st2 : RegState) (a p : String)
    (h : st1.poolsMem = st2.poolsMem) :
    poolJoinable st1 a p = poolJoinable st2 a p := by
  unfold poolJoinable
  rw [h]

/-- addAppToPool succeeds on a joinable pool and touches only the two
membership maps. -/
theorem addAppToPool_ok (env : RegEnv) (st : RegState) (a p : String)
    (ha : a ≠ "") (hp : p ≠ "") (hj : poolJoinable st a p = true) :
    ∃ st', addAppToPool env st a p = .ok st' ∧
      st'.apps = st.apps ∧ st'.conns = st.conns ∧
      st'.triggerMappings = st.triggerMappings ∧
      st'.rehydrationCache = st.rehydrationCache ∧
      st'.persistedApps = st.persistedApps ∧
      st'.poolsMem = st.poolsMem ∧ st'.persistedPools = st.persistedPools := by
  obtain ⟨m, hget, hmenc, hmpol⟩ : ∃ m, AList.get? st.poolsMem p = some m ∧
      m.encrypted = false ∧
      ((m.policies.forPermission "read").contains "*" ||
       (m.policies.forPermission "read").contains a) = true := by
    unfold poolJoinable at hj
    cases hget : AList.get? st.poolsMem p with
    | none => rw [hget] at hj; exact absurd hj (by simp)
    | some m =>
      rw [hget] at hj
      dsimp only [] at hj
      rw [Bool.and_eq_true, Bool.not_eq_true'] at hj
      exact ⟨m, rfl, hj.1, hj.2⟩
  have hhk : AList.hasKey st.poolsMem p = true := by
    unfold AList.hasKey
    rw [hget]
    rfl
  have hcpa : checkPoolAccess env st a p "read" = .ok () := by
    unfold checkPoolAccess
    rw [hget]
    dsimp only []
    rw [hmenc]
    rw [if_neg (by simp)]
    dsimp only []
    rw [if_pos hmpol]
  unfold addAppToPool
  rw [if_neg ha, if_neg hp, hhk]
  rw [if_neg (by simp)]
  dsimp only []
  rw [if_pos rfl, hcpa]
  dsimp only []
  exact ⟨_, rfl, rfl, rfl, rfl, rfl, rfl, rfl, rfl⟩

/-- Joining every pool of a joinable list succeeds and touches only the
two membership maps. -/
theorem foldPools_ok (env : RegEnv) (a : String) (P : List String) :
    ∀ st : RegState, a ≠ "" →
      (∀ p ∈ P, p ≠ "" ∧ poolJoinable st a p = true) →
      ∃ st', P.foldlM (fun s p => addAppToPool env s a p) st = .ok st' ∧
        st'.apps = st.apps ∧ st'.conns = st.conns ∧
        st'.triggerMappings = st.triggerMappings ∧
        st'.rehydrationCache = st.rehydrationCache ∧
        st'.persistedApps = st.persistedApps ∧
        st'.poolsMem = st.poolsMem ∧ st'.persistedPools = st.persistedPools := by
  induction P with
  | nil =>
    intro st ha _
    exact ⟨st, rfl, rfl, rfl, rfl, rfl, rfl, rfl, rfl⟩
  | cons p rest ih =>
    intro st ha hjoin
    obtain ⟨st1, heq, hf1, hf2, hf3, hf4, hf5, hf6, hf7⟩ :=
      addAppToPool_ok env st a p ha (hjoin p (List.mem_cons_self p rest)).1
        (hjoin p (List.mem_cons_self p rest)).2
    have hjoin2 : ∀ q ∈ rest, q ≠ "" ∧ poolJoinable st1 a q = true := by
      intro q hq
      refine ⟨(hjoin q (List.mem_cons_of_mem p hq)).1, ?_⟩
      rw [poolJoinable_congr st1 st a q hf6]
      exact (hjoin q (List.mem_cons_of_mem p hq)).2
    obtain ⟨st2, heq2, g1, g2, g3, g4, g5, g6, g7⟩ := ih st1 ha hjoin2
    refine ⟨st2, ?_, g1.trans hf1, g2.trans hf2, g3.trans hf3, g4.trans hf4,
      g5.trans hf5, g6.trans hf6, g7.trans hf7⟩
    simp only [List.foldlM_cons, heq]
    exact heq2

/-!
### Validator facts and the rehydration law
-/

theorem validAppId_facts (a : String) (h : validAppId a = true) :
    a ≠ "" ∧ a.length ≤ 128 := by
  unfold validAppId at h
  simp only [Bool.and_eq_true, decide_eq_true_eq] at h
  exact ⟨h.1.1, h.1.2⟩

theorem validPoolList_facts (P : List String) (h : validPoolList P = true) :
    ∀ p ∈ P, p ≠ "" ∧ p.length ≤ 64 := by
  intro p hp
  unfold validPoolList at h
  rw [List.all_eq_true] at h
  have h2 := h p hp
  unfold validPoolName at h2
  simp only [Bool.and_eq_true, decide_eq_true_eq] at h2
  exact ⟨h2.1.1, h2.1.2⟩

theorem validTriggerList_facts (T : List String) (h : validTriggerList T = true) :
    ∀ t ∈ T, t.length ≤ 128 := by
  intro t ht
  unfold validTriggerList at h
  rw [List.all_eq_true] at h
  have h2 := h t ht
  unfold validTriggerName at h2
  simp only [Bool.and_eq_true, decide_eq_true_eq] at h2
  exact h2.1.2

/-- A handshake whose fields pass the registry validators passes the
codec schema checks. -/
theorem validateHandshakeMsg_mk (id a : String) (P T : List String)
    (meta : JMap String)
    (hA : validAppId a = true) (hP : validPoolList P = true)
    (hT : validTriggerList T = true) :
    validateHandshakeMsg ⟨id, a, some P, some T, some meta⟩ = true := by
  unfold validateHandshakeMsg
  dsimp only []
  simp only [Bool.and_eq_true, decide_eq_true_eq, List.all_eq_true]
  exact ⟨⟨⟨(validAppId_facts a hA).1, (validAppId_facts a hA).2⟩,
    fun p hp => (validPoolList_facts P hP p hp).2⟩,
    fun t ht => validTriggerList_facts T hT t ht⟩

/-- Disconnection never touches the durable store or the pool metadata. -/
theorem handleDisconnection_frame (st : RegState) (conn : Conn) :
    (handleDisconnection st conn).persistedApps = st.persistedApps ∧
    (handleDisconnection st conn).poolsMem = st.poolsMem ∧
    (handleDisconnection st conn).persistedPools = st.persistedPools := by
  unfold handleDisconnection
  split
  · exact ⟨rfl, rfl, rfl⟩
  · rename_i appId heq
    split
    · rename_i reg heq2
      dsimp only []
      refine ⟨?_, ?_, ?_⟩
      · show (reg.triggers.foldl (fun s t => removeTriggerMapping s t appId)
            st).persistedApps = st.persistedApps
        exact (foldRemove_frame appId reg.triggers st).2.2.2.2.2.2.1
      · show (reg.triggers.foldl (fun s t => removeTriggerMapping s t appId)
            st).poolsMem = st.poolsMem
        exact (foldRemove_frame appId reg.triggers st).2.2.2.1
      · show (reg.triggers.foldl (fun s t => removeTriggerMapping s t appId)
            st).persistedPools = st.persistedPools
        exact (foldRemove_frame appId reg.triggers st).2.2.2.2.2.2.2
    · exact ⟨rfl, rfl, rfl⟩

/-- The fresh-registration path of registerApp: the app lands in the live
map and the connection map, its triggers in the index, its row in the
durable store; pool metadata is untouched. -/
theorem registerApp_fresh (env : RegEnv) (st : RegState) (a : String)
    (T P : List String) (meta : JMap String) (c : Conn)
    (hA : validAppId a = true) (hT : validTriggerList T = true)
    (hP : validPoolList P = true)
    (hfresh : AList.get? st.apps a = none)
    (hJoin : ∀ p ∈ P, poolJoinable st a p = true) :
    ∃ st1, registerApp env st a T P meta (some c) =
        .ok (⟨a, some c, P, T, meta, false⟩, st1) ∧
      AList.get? st1.apps a = some ⟨a, some c, P, T, meta, false⟩ ∧
      AList.get? st1.conns c.id = some a ∧
      AList.get? st1.persistedApps a = some ⟨P, T, meta⟩ ∧
      st1.poolsMem = st.poolsMem ∧
      st1.persistedPools = st.persistedPools ∧
      (∀ t ∈ T, a ∈ lookupTrig st1 t) := by
  have ha := (validAppId_facts a hA).1
  unfold registerApp
  rw [if_neg (by rw [hA]; simp), if_neg (by rw [hT]; simp), if_neg (by rw [hP]; simp)]
  have hnk : AList.hasKey st.apps a = false := by
    unfold AList.hasKey
    rw [hfresh]
    rfl
  rw [hnk, if_neg (by simp)]
  dsimp only []
  have hpmB : (T.foldl (fun s u => addTriggerMapping s u a)
      { st with
        apps := AList.set st.apps a ⟨a, some c, P, T, meta, false⟩
        conns := AList.set st.conns c.id a }).poolsMem = st.poolsMem :=
    (foldAdd_frame a T _).2.2.2.1
  obtain ⟨stP, hPeq, pf1, pf2, pf3, pf4, pf5, pf6, pf7⟩ :=
    foldPools_ok env a P
      { T.foldl (fun s u => addTriggerMapping s u a)
          { st with
            apps := AList.set st.apps a ⟨a, some c, P, T, meta, false⟩
            conns := AList.set st.conns c.id a } with
        rehydrationCache :=
          AList.set
            (T.foldl (fun s u => addTriggerMapping s u a)
              { st with
                apps := AList.set st.apps a ⟨a, some c, P, T, meta, false⟩
                conns := AList.set st.conns c.id a }).rehydrationCache
            a ⟨P, T, meta⟩ }
      ha
      (by
        intro p hp
        refine ⟨(validPoolList_facts P hP p hp).1, ?_⟩
        have hcg := poolJoinable_congr
          { T.foldl (fun s u => addTriggerMapping s u a)
              { st with
                apps := AList.set st.apps a ⟨a, some c, P, T, meta, false⟩
                conns := AList.set st.conns c.id a } with
            rehydrationCache :=
              AList.set
                (T.foldl (fun s u => addTriggerMapping s u a)
                  { st with
                    apps := AList.set st.apps a ⟨a, some c, P, T, meta, false⟩
                    conns := AList.set st.conns c.id a }).rehydrationCache
                a ⟨P, T, meta⟩ }
          st a p hpmB
        rw [hcg]
        exact hJoin p hp)
  rw [hPeq]
  dsimp only []
  refine ⟨_, rfl, ?_, ?_, ?_, ?_, ?_, ?_⟩
  · show AList.get? stP.apps a = some ⟨a, some c, P, T, meta, false⟩
    rw [pf1]
    show AList.get? (T.foldl (fun s u => addTriggerMapping s u a)
      { st with
        apps := AList.set st.apps a ⟨a, some c, P, T, meta, false⟩
        conns := AList.set st.conns c.id a }).apps a
      = some ⟨a, some c, P, T, meta, false⟩
    rw [(foldAdd_frame a T _).1]
    exact alist_get_set_self st.apps a _
  · show AList.get? stP.conns c.id = some a
    rw [pf2]
    show AList.get? (T.foldl (fun s u => addTriggerMapping s u a)
      { st with
        apps := AList.set st.apps a ⟨a, some c, P, T, meta, false⟩
        conns := AList.set st.conns c.id a }).conns c.id = some a
    rw [(foldAdd_frame a T _).2.1]
    exact alist_get_set_self st.conns c.id a
  · exact alist_get_set_self stP.persistedApps a _
  · show stP.poolsMem = st.poolsMem
    rw [pf6]
    exact hpmB
  · show stP.persistedPools = st.persistedPools
    rw [pf7]
    exact (foldAdd_frame a T _).2.2.2.2.2.2.2
  · intro t ht
    have hm := foldAdd_mem a T
      { st with
        apps := AList.set st.apps a ⟨a, some c, P, T, meta, false⟩
        conns := AList.set st.conns c.id a } t ht
    have hcg : lookupTrig
        { stP with persistedApps := AList.set stP.persistedApps a ⟨P, T, meta⟩ } t
        = lookupTrig (T.foldl (fun s u => addTriggerMapping s u a)
          { st with
            apps := AList.set st.apps a ⟨a, some c, P, T, meta, false⟩
            conns := AList.set st.conns c.id a }) t := by
      refine lookupTrig_congr _ _ t ?_
      show stP.triggerMappings = _
      exact pf3
    rw [hcg]
    exact hm

/-- The persisted-row path of rehydrateApp: the registration carries the
stored pools, triggers and metadata, is flagged rehydrated, and the
trigger-index entries are restored. -/
theorem rehydrateApp_spec (env : RegEnv) (st : RegState) (a : String)
    (c : Conn) (data : CachedReg)
    (hdata : AList.get? st.persistedApps a = some data)
    (hT : validTriggerList data.triggers = true)
    (ha : a ≠ "")
    (hJoin : ∀ p ∈ data.pools, p ≠ "" ∧ poolJoinable st a p = true) :
    ∃ st2, rehydrateApp env st a c =
        .ok (⟨a, some c, data.pools, data.triggers, data.meta, true⟩, st2) ∧
      (∀ t ∈ data.triggers, a ∈ lookupTrig st2 t) := by
  unfold rehydrateApp
  rw [hdata]
  dsimp only []
  rw [hT]
  rw [if_pos rfl]
  have hpmB : (data.triggers.foldl (fun s u => addTriggerMapping s u a)
      { st with
        apps := AList.set st.apps a
          ⟨a, some c, data.pools, data.triggers, data.meta, true⟩
        conns := AList.set st.conns c.id a }).poolsMem = st.poolsMem :=
    (foldAdd_frame a data.triggers _).2.2.2.1
  obtain ⟨stP, hPeq, pf1, pf2, pf3, pf4, pf5, pf6, pf7⟩ :=
    foldPools_ok env a data.pools
      { data.triggers.foldl (fun s u => addTriggerMapping s u a)
          { st with
            apps := AList.set st.apps a
              ⟨a, some c, data.pools, data.triggers, data.meta, true⟩
            conns := AList.set st.conns c.id a } with
        rehydrationCache :=
          AList.set
            (data.triggers.foldl (fun s u => addTriggerMapping s u a)
              { st with
                apps := AList.set st.apps a
                  ⟨a, some c, data.pools, data.triggers, data.meta, true⟩
                conns := AList.set st.conns c.id a }).rehydrationCache
            a ⟨data.pools, data.triggers, data.meta⟩ }
      ha
      (by
        intro p hp
        refine ⟨(hJoin p hp).1, ?_⟩
        have hcg := poolJoinable_congr
          { data.triggers.foldl (fun s u => addTriggerMapping s u a)
              { st with
                apps := AList.set st.apps a
                  ⟨a, some c, data.pools, data.triggers, data.meta, true⟩
                conns := AList.set st.conns c.id a } with
            rehydrationCache :=
              AList.set
                (data.triggers.foldl (fun s u => addTriggerMapping s u a)
                  { st with
                    apps := AList.set st.apps a
                      ⟨a, some c, data.pools, data.triggers, data.meta, true⟩
                    conns := AList.set st.conns c.id a }).rehydrationCache
                a ⟨data.pools, data.triggers, data.meta⟩ }
          st a p hpmB
        rw [hcg]
        exact (hJoin p hp).2)
  rw [hPeq]
  dsimp only []
  refine ⟨stP, rfl, ?_⟩
  intro t ht
  have hm := foldAdd_mem a data.triggers
    { st with
      apps := AList.set st.apps a
        ⟨a, some c, data.pools, data.triggers, data.meta, true⟩
      conns := AList.set st.conns c.id a } t ht
  have hcg : lookupTrig stP t
      = lookupTrig (data.triggers.foldl (fun s u => addTriggerMapping s u a)
        { st with
          apps := AList.set st.apps a
            ⟨a, some c, data.pools, data.triggers, data.meta, true⟩
          conns := AList.set st.conns c.id a }) t := by
    refine lookupTrig_congr _ _ t ?_
    exact pf3
  rw [hcg]
  exact hm

/-- Claim C4: an app that completes a full handshake with pools P and
triggers T, disconnects, and reconnects with an empty-triggers handshake
receives a handshake_ack whose assigned pools equal P, assigned triggers
equal T and rehydrated flag is true, and the trigger-index entries for
every trigger in T are restored. -/
theorem rehydration_restores_registration (env : RegEnv) (st0 : RegState)
    (a : String) (P T : List String) (meta1 meta2 : JMap String)
    (c1 c2 : Conn) (id1 id2 : String)
    (hA : validAppId a = true) (hP : validPoolList P = true)
    (hT : validTriggerList T = true)
    (hfreshApps : AList.get? st0.apps a = none)
    (hfreshCache : AList.get? st0.rehydrationCache a = none)
    (hfreshPersist : AList.get? st0.persistedApps a = none)
    (hJoin : ∀ p ∈ P, poolJoinable st0 a p = true) :
    ∃ reg1 ack1 st1 reg2 ack2 st3,
      processHandshake env st0 ⟨id1, a, some P, some T, some meta1⟩ c1
        = .ok (reg1, ack1, st1) ∧
      ack1.pools = P ∧ ack1.triggers = T ∧ ack1.rehydrated = false ∧
      processHandshake env (handleDisconnection st1 c1)
        ⟨id2, a, some [], some [], some meta2⟩ c2 = .ok (reg2, ack2, st3) ∧
      ack2.pools = P ∧ ack2.triggers = T ∧ ack2.rehydrated = true ∧
      (∀ t ∈ T, a ∈ lookupTrig st3 t) := by
  have ha := (validAppId_facts a hA).1
  obtain ⟨st1, hreg, happs1, hconns1, hpers1, hpm1, hpp1, hmem1⟩ :=
    registerApp_fresh env st0 a T P meta1 c1 hA hT hP hfreshApps hJoin
  have hhrd : hasRehydrationData st0 a = false := by
    unfold hasRehydrationData AList.hasKey
    rw [hfreshCache, hfreshPersist]
    rfl
  have hh1 : processHandshake env st0 ⟨id1, a, some P, some T, some meta1⟩ c1
      = .ok (⟨a, some c1, P, T, meta1, false⟩, ⟨a, P, T, false⟩, st1) := by
    unfold processHandshake
    rw [if_neg (by rw [validateHandshakeMsg_mk id1 a P T meta1 hA hP hT]; simp)]
    dsimp only []
    simp only [Option.getD_some]
    rw [if_neg (by rw [hA]; simp), if_neg (by rw [hP]; simp),
      if_neg (by rw [hT]; simp)]
    rw [hhrd, Bool.and_false]
    rw [if_neg (by simp)]
    rw [hreg]
  have hd := handleDisconnection_frame st1 c1
  have hpa2 : AList.get? (handleDisconnection st1 c1).persistedApps a
      = some ⟨P, T, meta1⟩ := by
    rw [hd.1]
    exact hpers1
  have hpm2 : (handleDisconnection st1 c1).poolsMem = st0.poolsMem :=
    hd.2.1.trans hpm1
  have hhrd2 : hasRehydrationData (handleDisconnection st1 c1) a = true := by
    unfold hasRehydrationData
    rw [hpa2]
    simp
  obtain ⟨st3, hreh, hmem3⟩ :=
    rehydrateApp_spec env (handleDisconnection st1 c1) a c2 ⟨P, T, meta1⟩ hpa2
      hT ha
      (by
        intro p hp
        refine ⟨(validPoolList_facts P hP p hp).1, ?_⟩
        rw [poolJoinable_congr _ st0 a p hpm2]
        exact hJoin p hp)
  have hh2 : processHandshake env (handleDisconnection st1 c1)
      ⟨id2, a, some [], some [], some meta2⟩ c2
      = .ok (⟨a, some c2, P, T, meta1, true⟩, ⟨a, P, T, true⟩, st3) := by
    unfold processHandshake
    rw [if_neg (by
      rw [validateHandshakeMsg_mk id2 a [] [] meta2 hA (by rfl) (by rfl)]
      simp)]
    dsimp only []
    simp only [Option.getD_some]
    rw [if_neg (by rw [hA]; simp), if_neg (by decide), if_neg (by decide)]
    rw [hhrd2]
    rw [if_pos (by simp)]
    rw [hreh]
    rfl
  exact ⟨_, _, st1, _, _, st3, hh1, rfl, rfl, rfl, hh2, rfl, rfl, rfl, hmem3⟩

/-- Witness for C4: app A registers with pool p1 and triggers t1 and t2
on the fresh state, disconnects, reconnects minimally; all hypotheses
hold at this input. -/
theorem rehydration_restores_registration_witness :
    validAppId "A" = true ∧
    validPoolList ["p1"] = true ∧
    validTriggerList ["t1", "t2"] = true ∧
    AList.get? stFresh.apps "A" = none ∧
    (∀ p ∈ ["p1"], poolJoinable stFresh "A" p = true) ∧
    (∃ reg1 ack1 st1 reg2 ack2 st3,
      processHandshake plainRegEnv stFresh
        ⟨"H1", "A", some ["p1"], some ["t1", "t2"], some []⟩ ⟨1, true⟩
        = .ok (reg1, ack1, st1) ∧
      ack1.pools = ["p1"] ∧ ack1.triggers = ["t1", "t2"] ∧
      ack1.rehydrated = false ∧
      processHandshake plainRegEnv (handleDisconnection st1 ⟨1, true⟩)
        ⟨"H2", "A", some [], some [], some []⟩ ⟨2, true⟩
        = .ok (reg2, ack2, st3) ∧
      ack2.pools = ["p1"] ∧ ack2.triggers = ["t1", "t2"] ∧
      ack2.rehydrated = true ∧
      (∀ t ∈ ["t1", "t2"], "A" ∈ lookupTrig st3 t)) :=
  ⟨by decide, by decide, by decide, rfl, by decide,
   rehydration_restores_registration plainRegEnv stFresh "A" ["p1"]
     ["t1", "t2"] [] [] ⟨1, true⟩ ⟨2, true⟩ "H1" "H2"
     (by decide) (by decide) (by decide) rfl rfl rfl (by decide)⟩

end LatZero
